import Mathlib

/-!
# Student record store (studentManagementSystem.js)

A shallow embedding of the record store of `studentManagementSystem.js`, of
the interactive shell that drives it, and the properties of the five store
operations and of the shell's dialogues.

## Values

The operations are called with JavaScript values.  The embedding covers the
primitive values the documented parameter types range over: `undefined`,
`null`, booleans, numbers and strings.

* A number is `NaN`, an infinity or an integral number `int z`.  The two zeros
  are one value `int 0`: the program cannot tell them apart (both are falsy,
  both convert to the string `0`, and they are `===` to each other).
  Non-integral numbers are not represented.  The conversion of an integral
  number to a string follows the language: the shortest decimal digits that
  read back as the number, in full below `10^21` and in exponent form from
  there on.  An integer that is not a double stands for no number.
* `parseInt` applied to a string is embedded in full: leading white space, an
  optional sign, the `0x` prefix, the longest run of digits, and rounding of the
  integer read to the nearest double (to `Infinity` when it is too large).  The
  language lets an implementation round a decimal numeral of more than 20
  significant digits from its first 20 digits; the embedding rounds the exact
  integer.

## State

The module-level array `students` is threaded through the operations: every
operation takes the store and returns its result object together with the
store after the call.  The shell is a state machine over the lines it reads;
its state holds the store, the pending question of the `readline` interface
and the events produced so far.
-/

namespace StudentManagementSystem

/-! ## JavaScript values -/

/-- Number values: `NaN`, an integral number, or an infinity (`neg` tells its sign). -/
inductive JSNum where
  | nan
  | int (z : Int)
  | inf (neg : Bool)
  deriving DecidableEq, Repr

/-- Primitive JavaScript values. -/
inductive JSVal where
  | undefined
  | null
  | bool (b : Bool)
  | num (n : JSNum)
  | str (s : String)
  deriving DecidableEq, Repr

/-- Truthiness of a value, as tested by `!x` and `if (x)`: `undefined`, `null`, `false`,
`NaN`, zero and the empty string are falsy, every other value is truthy. -/
def truthy : JSVal → Bool
  | .undefined => false
  | .null => false
  | .bool b => b
  | .num .nan => false
  | .num (.int z) => decide (z ≠ 0)
  | .num (.inf _) => true
  | .str s => decide (s ≠ "")

/-- Strict equality `a === b` on primitive values: same type and same value, with `NaN`
different from itself. -/
def strictEq : JSVal → JSVal → Bool
  | .undefined, .undefined => true
  | .null, .null => true
  | .bool a, .bool b => decide (a = b)
  | .num .nan, .num _ => false
  | .num _, .num .nan => false
  | .num a, .num b => decide (a = b)
  | .str a, .str b => decide (a = b)
  | _, _ => false

/-- Number of binary digits of a natural number; the first argument bounds the recursion. -/
def bitLength : Nat → Nat → Nat
  | 0, _ => 0
  | fuel + 1, n => if n = 0 then 0 else bitLength fuel (n / 2) + 1

/-- The double nearest to a natural number (ties to the even significand), `Infinity` when
the rounded value reaches `2^1024`.  Natural numbers below `2^53` are doubles. -/
def toNumber (m : Nat) : JSNum :=
  if m < 2 ^ 53 then .int m
  else
    let e := bitLength m m - 53
    let q := m / 2 ^ e
    let r := m % 2 ^ e
    let q1 := if 2 * r > 2 ^ e ∨ (2 * r = 2 ^ e ∧ q % 2 = 1) then q + 1 else q
    if q1 * 2 ^ e ≥ 2 ^ 1024 then .inf false else .int (q1 * 2 ^ e)

/-- The decimal value with the fewest significant digits that rounds to the double `m`,
found by trying `k = 1, 2, ...` significant digits: the multiples of `10 ^ (d - k)` next to
`m` on either side, `d` being the number of digits of `m`.  When both round to `m` the
nearer one is taken, and on a tie the one with the even last digit.  The first argument
bounds the number of tries; a double is found again with all its digits at the latest. -/
def shortestValue (m d : Nat) : Nat → Nat → Nat
  | 0, _ => m
  | fuel + 1, k =>
    let p := 10 ^ (d - k)
    let lo := m / p * p
    let hi := lo + p
    let okLo := decide (toNumber lo = .int m)
    let okHi := decide (toNumber hi = .int m)
    if okLo && okHi then
      if m - lo < hi - m then lo
      else if hi - m < m - lo then hi
      else if (m / p) % 2 = 0 then lo else hi
    else if okLo then lo
    else if okHi then hi
    else shortestValue m d fuel (k + 1)

/-- A run of digits without its trailing zeros. -/
def stripTrailingZeros (digits : List Char) : List Char :=
  (digits.reverse.dropWhile (fun c => c = '0')).reverse

/-- String conversion of a non-negative integral number.  Below `2^53` every integer is a
double and its numeral is the shortest one that reads back as it.  From `2^53` on the
digits are those of the shortest decimal value that rounds to the number, written in full
up to 21 digits and in exponent form beyond.  (An integer that is not a double stands for
no number; it comes out with all its digits.) -/
def natToString (m : Nat) : String :=
  if m < 2 ^ 53 then String.mk (Nat.toDigits 10 m)
  else
    let d := (Nat.toDigits 10 m).length
    let digits := Nat.toDigits 10 (shortestValue m d d 1)
    if digits.length ≤ 21 then String.mk digits
    else
      match stripTrailingZeros digits with
      | [] => String.mk digits
      | [c] => String.mk (c :: 'e' :: '+' :: Nat.toDigits 10 (digits.length - 1))
      | c :: rest =>
        String.mk (c :: '.' :: (rest ++ 'e' :: '+' :: Nat.toDigits 10 (digits.length - 1)))

/-- String conversion of an integral number, with a leading minus sign when it is
negative. -/
def intToString (z : Int) : String :=
  if z < 0 then "-" ++ natToString z.natAbs else natToString z.natAbs

/-- String conversion of a value, as done by a template literal and by `parseInt` on its
argument. -/
def toStr : JSVal → String
  | .undefined => "undefined"
  | .null => "null"
  | .bool true => "true"
  | .bool false => "false"
  | .num .nan => "NaN"
  | .num (.int z) => intToString z
  | .num (.inf true) => "-Infinity"
  | .num (.inf false) => "Infinity"
  | .str s => s

/-! ## parseInt -/

/-- White space and line terminators skipped by `parseInt` at the start of its input. -/
def isStrWhiteSpaceChar (c : Char) : Bool :=
  [0x9, 0xA, 0xB, 0xC, 0xD, 0x20, 0xA0, 0x1680, 0x2000, 0x2001, 0x2002, 0x2003, 0x2004,
   0x2005, 0x2006, 0x2007, 0x2008, 0x2009, 0x200A, 0x2028, 0x2029, 0x202F, 0x205F, 0x3000,
   0xFEFF].contains c.toNat

/-- Value of a character read as a digit: `0`-`9`, then the letters for ten and above. -/
def digitValue (c : Char) : Option Nat :=
  if 48 ≤ c.toNat ∧ c.toNat ≤ 57 then some (c.toNat - 48)
  else if 97 ≤ c.toNat ∧ c.toNat ≤ 122 then some (c.toNat - 87)
  else if 65 ≤ c.toNat ∧ c.toNat ≤ 90 then some (c.toNat - 55)
  else none

/-- Whether a character is a digit of the given radix. -/
def isRadixDigit (radix : Nat) (c : Char) : Bool :=
  match digitValue c with
  | some d => decide (d < radix)
  | none => false

/-- Integer written by a run of digits in the given radix. -/
def mathInt (radix : Nat) (digits : List Char) : Nat :=
  digits.foldl (fun acc c => acc * radix + (digitValue c).getD 0) 0

/-- Sign applied to a parsed number. -/
def JSNum.negate : JSNum → JSNum
  | .nan => .nan
  | .int z => .int (-z)
  | .inf neg => .inf (!neg)

/-- Parsing of a character sequence by `parseInt` with no radix argument. -/
def parseIntChars (input : List Char) : JSNum :=
  let s := input.dropWhile isStrWhiteSpaceChar
  let signed : Bool × List Char :=
    match s with
    | '-' :: t => (true, t)
    | '+' :: t => (false, t)
    | _ => (false, s)
  let based : Nat × List Char :=
    match signed.2 with
    | '0' :: 'x' :: t => (16, t)
    | '0' :: 'X' :: t => (16, t)
    | _ => (10, signed.2)
  let z := based.2.takeWhile (isRadixDigit based.1)
  if z = [] then .nan
  else if signed.1 then (toNumber (mathInt based.1 z)).negate
  else toNumber (mathInt based.1 z)

/-- The call `parseInt(v)`: the argument is converted to a string, then parsed. -/
def parseInt (v : JSVal) : JSNum :=
  parseIntChars (toStr v).data

/-- The test `isNaN(n)`. -/
def JSNum.isNaN : JSNum → Bool
  | .nan => true
  | _ => false

/-- The test `n <= 0`; it is false on `NaN`. -/
def JSNum.leZero : JSNum → Bool
  | .nan => false
  | .int z => decide (z ≤ 0)
  | .inf neg => neg

/-! ## The record store -/

/-- A student record; `age` is the number produced by `parseInt`, the other fields hold
the values passed by the caller. -/
structure Student where
  name : JSVal
  id : JSVal
  age : JSNum
  major : JSVal
  deriving DecidableEq, Repr

/-- The result object of an operation; a property the object lacks is `none`. -/
structure Result where
  success : Bool
  message : Option String
  student : Option Student
  deriving DecidableEq, Repr

/-- The module-level array `students`, in insertion order. -/
abbrev Store := List Student

/-- Message of `addStudent` when a field is missing. -/
def msgIncomplete : String := "请输入完整的学生信息"

/-- Message of `addStudent` when the id is already in the store. -/
def msgDuplicate (id : JSVal) : String := "学号 " ++ toStr id ++ " 已存在"

/-- Message of `addStudent` and `updateStudent` when the age is rejected. -/
def msgInvalidAge : String := "请输入有效的年龄"

/-- Message of a successful `addStudent`. -/
def msgAdded (name : JSVal) : String := "学生 " ++ toStr name ++ " 添加成功"

/-- Message of `queryStudent`, `updateStudent` and `deleteStudent` when the id is falsy. -/
def msgEnterId : String := "请输入学号"

/-- Message of `queryStudent`, `updateStudent` and `deleteStudent` when no record matches. -/
def msgNotFound (id : JSVal) : String := "未找到学号为 " ++ toStr id ++ " 的学生"

/-- Message of `updateStudent` when neither an age nor a major is given. -/
def msgNoFields : String := "请至少提供一项要修改的信息（年龄或专业）"

/-- Message of a successful `updateStudent`. -/
def msgUpdated (name : JSVal) : String := "学生 " ++ toStr name ++ " 信息更新成功"

/-- Message of a successful `deleteStudent`. -/
def msgDeleted (name : JSVal) : String := "学生 " ++ toStr name ++ " 删除成功"

/-- A failed result: `success` false and a message, no record. -/
def failure (msg : String) : Result :=
  { success := false, message := some msg, student := none }

/-- The callback `student => student.id === id` of `find` and `findIndex`. -/
def hasId (id : JSVal) (student : Student) : Bool :=
  strictEq student.id id

/-- The function `addStudent(name, id, age, major)`. -/
def addStudent (name id age major : JSVal) (students : Store) : Result × Store :=
  if !truthy name || !truthy id || !truthy age || !truthy major then
    (failure msgIncomplete, students)
  else if (students.find? (hasId id)).isSome then
    (failure (msgDuplicate id), students)
  else
    let ageNum := parseInt age
    if ageNum.isNaN || ageNum.leZero then
      (failure msgInvalidAge, students)
    else
      let newStudent : Student := { name := name, id := id, age := ageNum, major := major }
      ({ success := true, message := some (msgAdded name), student := some newStudent },
       students ++ [newStudent])

/-- The function `queryStudent(id)`. -/
def queryStudent (id : JSVal) (students : Store) : Result × Store :=
  if !truthy id then
    (failure msgEnterId, students)
  else
    match students.find? (hasId id) with
    | none => (failure (msgNotFound id), students)
    | some student => ({ success := true, message := none, student := some student }, students)

/-- The function `updateStudent(id, age, major)`.  The result `-1` of `findIndex` is the
result `students.length` of `List.findIdx`. -/
def updateStudent (id age major : JSVal) (students : Store) : Result × Store :=
  if !truthy id then
    (failure msgEnterId, students)
  else
    let studentIndex := students.findIdx (hasId id)
    if h : studentIndex < students.length then
      if !truthy age && !truthy major then
        (failure msgNoFields, students)
      else
        let updatedStudent : Student := students[studentIndex]
        if truthy age then
          let ageNum := parseInt age
          if ageNum.isNaN || ageNum.leZero then
            (failure msgInvalidAge, students)
          else
            let updatedStudent : Student := { updatedStudent with age := ageNum }
            let updatedStudent : Student :=
              if truthy major then { updatedStudent with major := major } else updatedStudent
            ({ success := true, message := some (msgUpdated updatedStudent.name),
               student := some updatedStudent },
             students.set studentIndex updatedStudent)
        else
          let updatedStudent : Student :=
            if truthy major then { updatedStudent with major := major } else updatedStudent
          ({ success := true, message := some (msgUpdated updatedStudent.name),
             student := some updatedStudent },
           students.set studentIndex updatedStudent)
    else
      (failure (msgNotFound id), students)

/-- The function `deleteStudent(id)`; `splice(studentIndex, 1)` is `eraseIdx`. -/
def deleteStudent (id : JSVal) (students : Store) : Result × Store :=
  if !truthy id then
    (failure msgEnterId, students)
  else
    let studentIndex := students.findIdx (hasId id)
    if h : studentIndex < students.length then
      let studentName := students[studentIndex].name
      ({ success := true, message := some (msgDeleted studentName), student := none },
       students.eraseIdx studentIndex)
    else
      (failure (msgNotFound id), students)

/-- The function `showAllStudents()`: the array itself. -/
def showAllStudents (students : Store) : List Student × Store :=
  (students, students)

/-! ## Sequences of calls -/

/-- A call of one of the five exported functions, with its arguments. -/
inductive Call where
  | add (name id age major : JSVal)
  | query (id : JSVal)
  | update (id age major : JSVal)
  | delete (id : JSVal)
  | showAll
  deriving DecidableEq, Repr

/-- The store after one call. -/
def step (students : Store) : Call → Store
  | .add name id age major => (addStudent name id age major students).2
  | .query id => (queryStudent id students).2
  | .update id age major => (updateStudent id age major students).2
  | .delete id => (deleteStudent id students).2
  | .showAll => (showAllStudents students).2

/-- The store after a sequence of calls, starting from the empty store of a fresh module. -/
def run (calls : List Call) : Store :=
  calls.foldl step []

/-- A store that some sequence of calls produces from the empty store. -/
def Reachable (students : Store) : Prop :=
  ∃ calls : List Call, run calls = students

/-- The ids of the records of a store, in store order. -/
def ids (students : Store) : List JSVal :=
  students.map (fun student => student.id)

/-! ## Derived notions and sample stores -/

/-- The four arguments of one `addStudent` call. -/
structure AddArgs where
  name : JSVal
  id : JSVal
  age : JSVal
  major : JSVal
  deriving DecidableEq, Repr

/-- The record that a successful `addStudent` call with these arguments creates. -/
def AddArgs.record (a : AddArgs) : Student :=
  { name := a.name, id := a.id, age := parseInt a.age, major := a.major }

/-- A sequence of `addStudent` calls, one after the other: the result objects in call
order, and the store after the last call. -/
def addAll : List AddArgs → Store → List Result × Store
  | [], students => ([], students)
  | a :: rest, students =>
    let first := addStudent a.name a.id a.age a.major students
    let others := addAll rest first.2
    (first.1 :: others.1, others.2)

/-- The record `updateStudent` writes over `old`: the fields that are given replace the
old ones. -/
def updatedRecord (old : Student) (age major : JSVal) : Student :=
  { name := old.name, id := old.id,
    age := if truthy age = true then parseInt age else old.age,
    major := if truthy major = true then major else old.major }

/-- Every id in the store is truthy, and no two ids are `===` to each other. -/
def IdsDistinct (students : Store) : Prop :=
  (∀ v ∈ ids students, truthy v = true) ∧
    (ids students).Pairwise (fun a b => strictEq a b = false)

/-- The store that holds the one record of Alice; it is the store after one call. -/
def aliceStore : Store :=
  [{ name := .str "Alice", id := .str "S1", age := .int 20, major := .str "CS" }]

/-- The store that holds Alice, then Bob. -/
def aliceBobStore : Store :=
  [{ name := .str "Alice", id := .str "S1", age := .int 20, major := .str "CS" },
   { name := .str "Bob", id := .str "S2", age := .int 22, major := .str "EE" }]

/-- Two `addStudent` calls with different ids. -/
def twoAdds : List AddArgs :=
  [{ name := .str "Alice", id := .str "S1", age := .str "20", major := .str "CS" },
   { name := .str "Bob", id := .str "S2", age := .num (.int 22), major := .str "EE" }]

/-- The age string written as a decimal numeral with a fractional part: an optional minus
sign, the digits `ds` of the integer part, a point, and the characters `frac` after it. -/
def fractionalNumeral (neg : Bool) (ds frac : List Char) : JSVal :=
  match neg with
  | true => .str (String.mk ('-' :: (ds ++ '.' :: frac)))
  | false => .str (String.mk (ds ++ '.' :: frac))

/-- The age string made of the decimal digits of `n` followed by the character `c` and the
characters `rest`. -/
def partialNumeral (n : Nat) (c : Char) (rest : List Char) : JSVal :=
  .str (String.mk (Nat.toDigits 10 n ++ c :: rest))

/-- A numeral beyond the range of the doubles: `1` followed by 309 zeros. -/
def hugeNumeral : String :=
  String.mk ('1' :: List.replicate 309 '0')

/-- A record as the store keeps it: truthy name, id and major, and an age that is a
positive integer or, for a numeral beyond the range of the doubles, `Infinity`. -/
def WellFormed (r : Student) : Prop :=
  truthy r.name = true ∧ truthy r.id = true ∧ truthy r.major = true ∧
    ((∃ z : Int, 0 < z ∧ r.age = .int z) ∨ r.age = .inf false)

/-! ## The interactive shell

The shell is the function `startInteractiveMode`.  Its callbacks are values of `Callback`,
one per function expression passed to `readline.question`, holding the variables the
function closes over.  The interface of `readline` keeps at most one question callback:
`question` called while one is kept only writes the current prompt again and drops the new
callback; a line of input takes the kept callback, clears it, and calls it.  The shell
state records, in order, what the shell does: the lines it logs, the questions it asks, the
prompts written, and the calls of the store functions. -/

/-- The argument `actionType` of `askForStudentId`. -/
inductive ActionType where
  | query
  | update
  | delete
  deriving DecidableEq, Repr

/-- The callbacks passed to `readline.question`, with the variables they close over. -/
inductive Callback where
  | action
  | infoName
  | infoId (name : String)
  | infoAge (name id : String)
  | infoMajor (name id age : String)
  | studentId (actionType : ActionType)
  | newAge (id : String)
  | newMajor (id age : String)
  deriving DecidableEq, Repr

/-- What the shell does, as seen from outside. -/
inductive Event where
  | log (text : String)
  | logMessage (message : Option String)
  | logStudent (label : String) (student : Student)
  | question (query : String)
  | prompt (text : String)
  | called (call : Call)
  | close
  deriving DecidableEq, Repr

/-- The state of the running shell: the store, the question callback and the prompt that
the `readline` interface keeps, whether the interface is closed, and the events so far. -/
structure Shell where
  students : Store
  questionCallback : Option Callback
  currentPrompt : String
  closed : Bool
  trace : List Event
  deriving DecidableEq, Repr

/-- The query of the menu question. -/
def menuQuery : String := "请选择操作 (1-6): "

/-- The query for the id of a student. -/
def idQuery : String := "请输入学号: "

/-- The query for the new age, in the update dialogue. -/
def newAgeQuery : String := "请输入新年龄 (回车跳过): "

/-- The query for the new major, in the update dialogue. -/
def newMajorQuery : String := "请输入新专业 (回车跳过): "

/-- The call `console.log(text)`. -/
def Shell.log (text : String) (sh : Shell) : Shell :=
  { sh with trace := sh.trace ++ [Event.log text] }

/-- The call `console.log(result.message)`; a missing message is logged as `undefined`. -/
def Shell.logMessage (message : Option String) (sh : Shell) : Shell :=
  { sh with trace := sh.trace ++ [Event.logMessage message] }

/-- The statement `if (result.success && result.student) console.log(label, result.student)`. -/
def Shell.logStudentOf (label : String) (result : Result) (sh : Shell) : Shell :=
  match result.success, result.student with
  | true, some student => { sh with trace := sh.trace ++ [Event.logStudent label student] }
  | _, _ => sh

/-- The call `readline.question(query, callback)`.  With a callback already kept, the
current prompt is written again and the new callback is dropped; otherwise the query
becomes the prompt, the callback is kept, and the prompt is written.  (On a closed
interface the call throws; the shell asks nothing after it has closed the interface.) -/
def Shell.question (query : String) (callback : Callback) (sh : Shell) : Shell :=
  if sh.closed then sh
  else
    match sh.questionCallback with
    | some _ =>
      { sh with trace := sh.trace ++ [Event.question query, Event.prompt sh.currentPrompt] }
    | none =>
      { sh with
        questionCallback := some callback
        currentPrompt := query
        trace := sh.trace ++ [Event.question query, Event.prompt query] }

/-- The function `askForAction`. -/
def askForAction (sh : Shell) : Shell :=
  sh.question menuQuery .action

/-- The function `askForStudentInfo`: its first question. -/
def askForStudentInfo (sh : Shell) : Shell :=
  sh.question "请输入学生姓名: " .infoName

/-- The function `askForStudentId(actionType)`: its question. -/
def askForStudentId (actionType : ActionType) (sh : Shell) : Shell :=
  sh.question idQuery (.studentId actionType)

/-- The line that `showAllStudentsInfo` logs for one student. -/
def studentLine (student : Student) : String :=
  "姓名: " ++ toStr student.name ++ ", 学号: " ++ toStr student.id ++ ", 年龄: " ++
    toStr (.num student.age) ++ ", 专业: " ++ toStr student.major

/-- The function `showAllStudentsInfo`. -/
def showAllStudentsInfo (sh : Shell) : Shell :=
  let all := showAllStudents sh.students
  let sh := { sh with students := all.2, trace := sh.trace ++ [Event.called Call.showAll] }
  if all.1.length = 0 then sh.log "暂无学生信息"
  else all.1.foldl (fun s student => s.log (studentLine student)) (sh.log "所有学生信息:")

/-- The body of a callback, run with the line that was read. -/
def runCallback (callback : Callback) (line : String) (sh : Shell) : Shell :=
  match callback with
  | .action =>
    if line = "1" then askForStudentInfo sh
    else if line = "2" then askForStudentId .query sh
    else if line = "3" then askForStudentId .update sh
    else if line = "4" then askForStudentId .delete sh
    else if line = "5" then askForAction (showAllStudentsInfo sh)
    else if line = "6" then
      let sh := sh.log "感谢使用学生信息管理系统，再见！"
      { sh with closed := true, trace := sh.trace ++ [Event.close] }
    else askForAction (sh.log "无效的选择，请重新输入")
  | .infoName => sh.question idQuery (.infoId line)
  | .infoId name => sh.question "请输入年龄: " (.infoAge name line)
  | .infoAge name id => sh.question "请输入专业: " (.infoMajor name id line)
  | .infoMajor name id age =>
    let result := addStudent (.str name) (.str id) (.str age) (.str line) sh.students
    let sh := { sh with
      students := result.2
      trace := sh.trace ++ [Event.called (Call.add (.str name) (.str id) (.str age) (.str line))] }
    let sh := sh.logMessage result.1.message
    let sh := sh.logStudentOf "学生信息:" result.1
    askForAction sh
  | .studentId actionType =>
    let sh :=
      match actionType with
      | .query =>
        let result := queryStudent (.str line) sh.students
        let sh := { sh with
          students := result.2
          trace := sh.trace ++ [Event.called (Call.query (.str line))] }
        let sh := sh.logMessage result.1.message
        sh.logStudentOf "学生信息:" result.1
      | .update => sh.question newAgeQuery (.newAge line)
      | .delete =>
        let result := deleteStudent (.str line) sh.students
        let sh := { sh with
          students := result.2
          trace := sh.trace ++ [Event.called (Call.delete (.str line))] }
        sh.logMessage result.1.message
    askForAction sh
  | .newAge id => sh.question newMajorQuery (.newMajor id line)
  | .newMajor id age =>
    let result := updateStudent (.str id) (.str age) (.str line) sh.students
    let sh := { sh with
      students := result.2
      trace := sh.trace ++ [Event.called (Call.update (.str id) (.str age) (.str line))] }
    let sh := sh.logMessage result.1.message
    let sh := sh.logStudentOf "更新后的学生信息:" result.1
    askForAction sh

/-- A line of input arrives: the kept callback, if any, is cleared, the prompt is set back,
and the callback is called with the line.  A line with no callback kept, or on a closed
interface, has no listener. -/
def onLine (line : String) (sh : Shell) : Shell :=
  if sh.closed then sh
  else
    match sh.questionCallback with
    | none => sh
    | some callback =>
      runCallback callback line { sh with questionCallback := none, currentPrompt := "> " }

/-- The function `startInteractiveMode`, up to its first question, on a fresh module. -/
def startInteractiveMode : Shell :=
  let sh : Shell :=
    { students := [], questionCallback := none, currentPrompt := "> ", closed := false,
      trace := [Event.log "=== 学生信息管理系统 ===", Event.log "1. 添加学生", Event.log "2. 查询学生",
                Event.log "3. 修改学生信息", Event.log "4. 删除学生", Event.log "5. 显示所有学生",
                Event.log "6. 退出"] }
  askForAction sh

/-- The shell after the given lines of input. -/
def session (lines : List String) : Shell :=
  lines.foldl (fun sh line => onLine line sh) startInteractiveMode

/-- The events of a session after the seven lines of the menu. -/
def sessionEvents (lines : List String) : List Event :=
  (session lines).trace.drop 7

/-! ## Values: basic facts -/

lemma strictEq_eq {a b : JSVal} (h : strictEq a b = true) : a = b := by
  cases a <;> cases b <;> simp [strictEq] at h ⊢
  · exact h
  · rename_i x y
    cases x <;> cases y <;> simp [strictEq] at h ⊢ <;> exact h
  · exact h

lemma strictEq_self {a : JSVal} (h : truthy a = true) : strictEq a a = true := by
  cases a with
  | num n => cases n <;> simp [strictEq, truthy] at h ⊢
  | _ => simp [strictEq]

set_option maxRecDepth 1000000 in
set_option exponentiation.threshold 2000 in
/-- The string conversion of large integral numbers: `2^60` is printed with its shortest
digits, `10^21` in exponent form, so that `parseInt` reads `1` from it, and `2^53` and the
numbers below it with all their digits. -/
lemma toStr_large_numbers :
    toStr (.num (.int (2 ^ 60))) = "1152921504606847000" ∧
      toStr (.num (.int (10 ^ 21))) = "1e+21" ∧
      parseInt (.num (.int (10 ^ 21))) = .int 1 ∧
      toStr (.num (.int (2 ^ 70))) = "1.1805916207174113e+21" ∧
      toStr (.num (.int (2 ^ 53))) = "9007199254740992" ∧
      toStr (.num (.int (-20))) = "-20" := by
  decide

/-- A falsy value never parses to a number that the age test accepts. -/
lemma rejected_of_falsy {age : JSVal} (h : truthy age = false) :
    ((parseInt age).isNaN || (parseInt age).leZero) = true := by
  cases age with
  | undefined => decide
  | null => decide
  | bool b =>
    cases b
    · decide
    · simp [truthy] at h
  | num n =>
    cases n with
    | nan => decide
    | int z =>
      have hz : z = 0 := by simpa [truthy] using h
      subst hz
      decide
    | inf neg => simp [truthy] at h
  | str s =>
    have hs : s = "" := by simpa [truthy] using h
    subst hs
    decide

/-- An age that parses to a positive number is truthy. -/
lemma truthy_of_accepted {age : JSVal}
    (h : ((parseInt age).isNaN || (parseInt age).leZero) = false) : truthy age = true := by
  cases ht : truthy age
  · rw [rejected_of_falsy ht] at h
    exact absurd h (by decide)
  · rfl

/-! ## The store: effect of each operation -/

lemma find?_hasId_eq_none {id : JSVal} {students : Store} :
    students.find? (hasId id) = none ↔ ∀ v ∈ ids students, strictEq v id = false := by
  simp [ids, hasId, List.find?_eq_none]

/-- What `addStudent` does, case by case, in the order of its checks. -/
lemma addStudent_eq (name id age major : JSVal) (students : Store) :
    addStudent name id age major students =
      if truthy name = false ∨ truthy id = false ∨ truthy age = false ∨ truthy major = false then
        (failure msgIncomplete, students)
      else if (students.find? (hasId id)).isSome = true then
        (failure (msgDuplicate id), students)
      else if (parseInt age).isNaN = true ∨ (parseInt age).leZero = true then
        (failure msgInvalidAge, students)
      else
        ({ success := true, message := some (msgAdded name),
           student := some { name := name, id := id, age := parseInt age, major := major } },
         students ++ [{ name := name, id := id, age := parseInt age, major := major }]) := by
  unfold addStudent
  by_cases h1 : truthy name = true <;> by_cases h2 : truthy id = true <;>
    by_cases h3 : truthy age = true <;> by_cases h4 : truthy major = true <;>
    simp [h1, h2, h3, h4]

lemma ids_addStudent (name id age major : JSVal) (students : Store) :
    ids (addStudent name id age major students).2 = ids students ∨
      (truthy id = true ∧ (∀ v ∈ ids students, strictEq v id = false) ∧
        ids (addStudent name id age major students).2 = ids students ++ [id]) := by
  rw [addStudent_eq]
  split_ifs with h1 h2 h3
  · exact Or.inl rfl
  · exact Or.inl rfl
  · exact Or.inl rfl
  · right
    refine ⟨?_, ?_, ?_⟩
    · have := not_or.mp h1
      simpa using (not_or.mp this.2).1
    · apply find?_hasId_eq_none.mp
      simpa using h2
    · simp [ids]

lemma queryStudent_store (id : JSVal) (students : Store) :
    (queryStudent id students).2 = students := by
  unfold queryStudent
  split_ifs
  · rfl
  · split <;> rfl

lemma updateStudent_falsy_id {id : JSVal} (age major : JSVal) (students : Store)
    (hid : truthy id = false) :
    updateStudent id age major students = (failure msgEnterId, students) := by
  simp [updateStudent, hid]

lemma updateStudent_absent {id : JSVal} (age major : JSVal) {students : Store}
    (hid : truthy id = true) (h : ¬ students.findIdx (hasId id) < students.length) :
    updateStudent id age major students = (failure (msgNotFound id), students) := by
  unfold updateStudent
  simp only [hid, Bool.not_true, Bool.false_eq_true, if_false]
  rw [dif_neg h]

lemma updateStudent_no_fields {id age major : JSVal} {students : Store}
    (hid : truthy id = true) (h : students.findIdx (hasId id) < students.length)
    (ha : truthy age = false) (hm : truthy major = false) :
    updateStudent id age major students = (failure msgNoFields, students) := by
  unfold updateStudent
  simp only [hid, Bool.not_true, Bool.false_eq_true, if_false]
  rw [dif_pos h]
  simp [ha, hm]

lemma updateStudent_invalid_age {id age : JSVal} (major : JSVal) {students : Store}
    (hid : truthy id = true) (h : students.findIdx (hasId id) < students.length)
    (ha : truthy age = true)
    (hp : ((parseInt age).isNaN || (parseInt age).leZero) = true) :
    updateStudent id age major students = (failure msgInvalidAge, students) := by
  unfold updateStudent
  simp only [hid, Bool.not_true, Bool.false_eq_true, if_false]
  rw [dif_pos h]
  simp only [ha, Bool.not_true, Bool.false_and, Bool.false_eq_true, if_false, if_true, hp]

lemma updateStudent_ok {id age major : JSVal} {students : Store}
    (hid : truthy id = true) (h : students.findIdx (hasId id) < students.length)
    (hprov : truthy age = true ∨ truthy major = true)
    (hp : truthy age = true → ((parseInt age).isNaN || (parseInt age).leZero) = false) :
    updateStudent id age major students =
      ({ success := true,
         message := some (msgUpdated (students[students.findIdx (hasId id)]).name),
         student := some (updatedRecord (students[students.findIdx (hasId id)]) age major) },
       students.set (students.findIdx (hasId id))
         (updatedRecord (students[students.findIdx (hasId id)]) age major)) := by
  unfold updateStudent
  simp only [hid, Bool.not_true, Bool.false_eq_true, if_false]
  rw [dif_pos h]
  by_cases ha : truthy age = true
  · have hp1 := hp ha
    by_cases hm : truthy major = true
    · simp [ha, hm, hp1, updatedRecord]
    · simp [ha, hm, hp1, updatedRecord]
  · have hm : truthy major = true := hprov.resolve_left ha
    simp [ha, hm, updatedRecord]

/-- The cases of `updateStudent`: it fails and leaves the store as it is, or it succeeds
and overwrites the first record with the id. -/
lemma updateStudent_cases (id age major : JSVal) (students : Store) :
    ((updateStudent id age major students).1.success = false ∧
        (updateStudent id age major students).2 = students) ∨
      (∃ h : students.findIdx (hasId id) < students.length,
        truthy id = true ∧ (truthy age = true ∨ truthy major = true) ∧
        (truthy age = true → ((parseInt age).isNaN || (parseInt age).leZero) = false) ∧
        updateStudent id age major students =
          ({ success := true,
             message := some (msgUpdated (students[students.findIdx (hasId id)]).name),
             student := some (updatedRecord (students[students.findIdx (hasId id)]) age major) },
           students.set (students.findIdx (hasId id))
             (updatedRecord (students[students.findIdx (hasId id)]) age major))) := by
  by_cases hid : truthy id = true
  · by_cases h : students.findIdx (hasId id) < students.length
    · by_cases ha : truthy age = true
      · by_cases hp : ((parseInt age).isNaN || (parseInt age).leZero) = true
        · left
          rw [updateStudent_invalid_age major hid h ha hp]
          exact ⟨rfl, rfl⟩
        · right
          have hp1 : ((parseInt age).isNaN || (parseInt age).leZero) = false := by
            simpa using hp
          exact ⟨h, hid, Or.inl ha, fun _ => hp1, updateStudent_ok hid h (Or.inl ha) (fun _ => hp1)⟩
      · by_cases hm : truthy major = true
        · right
          exact ⟨h, hid, Or.inr hm, fun h1 => absurd h1 ha,
            updateStudent_ok hid h (Or.inr hm) (fun h1 => absurd h1 ha)⟩
        · left
          rw [updateStudent_no_fields hid h (by simpa using ha) (by simpa using hm)]
          exact ⟨rfl, rfl⟩
    · left
      rw [updateStudent_absent age major hid h]
      exact ⟨rfl, rfl⟩
  · left
    rw [updateStudent_falsy_id age major students (by simpa using hid)]
    exact ⟨rfl, rfl⟩

lemma ids_updateStudent (id age major : JSVal) (students : Store) :
    ids (updateStudent id age major students).2 = ids students := by
  rcases updateStudent_cases id age major students with ⟨_, h⟩ | ⟨h, _, _, _, heq⟩
  · rw [h]
  · rw [heq]
    simp only [ids, List.map_set, updatedRecord]
    apply List.ext_getElem
    · simp
    · intro n h1 h2
      by_cases hn : students.findIdx (hasId id) = n
      · subst hn
        simp
      · simp [List.getElem_set_ne hn]

lemma deleteStudent_falsy_id {id : JSVal} (students : Store) (hid : truthy id = false) :
    deleteStudent id students = (failure msgEnterId, students) := by
  simp [deleteStudent, hid]

lemma deleteStudent_absent {id : JSVal} {students : Store}
    (hid : truthy id = true) (h : ¬ students.findIdx (hasId id) < students.length) :
    deleteStudent id students = (failure (msgNotFound id), students) := by
  unfold deleteStudent
  simp only [hid, Bool.not_true, Bool.false_eq_true, if_false]
  rw [dif_neg h]

lemma deleteStudent_ok {id : JSVal} {students : Store}
    (hid : truthy id = true) (h : students.findIdx (hasId id) < students.length) :
    deleteStudent id students =
      ({ success := true,
         message := some (msgDeleted (students[students.findIdx (hasId id)]).name),
         student := none },
       students.eraseIdx (students.findIdx (hasId id))) := by
  unfold deleteStudent
  simp only [hid, Bool.not_true, Bool.false_eq_true, if_false]
  rw [dif_pos h]

lemma deleteStudent_store (id : JSVal) (students : Store) :
    (deleteStudent id students).2 = students ∨
      (deleteStudent id students).2 = students.eraseIdx (students.findIdx (hasId id)) := by
  by_cases hid : truthy id = true
  · by_cases h : students.findIdx (hasId id) < students.length
    · rw [deleteStudent_ok hid h]
      exact Or.inr rfl
    · rw [deleteStudent_absent hid h]
      exact Or.inl rfl
  · rw [deleteStudent_falsy_id students (by simpa using hid)]
    exact Or.inl rfl

/-! ## Invariant of the reachable stores -/

lemma idsDistinct_nil : IdsDistinct [] := by
  simp [IdsDistinct, ids]

lemma strictEq_comm_false {a b : JSVal} (h : strictEq a b = false) : strictEq b a = false := by
  cases hba : strictEq b a
  · rfl
  · have hne : a ≠ b := by
      intro hab
      subst hab
      rw [hba] at h
      exact absurd h (by decide)
    exact absurd (strictEq_eq hba).symm hne

lemma idsDistinct_step {students : Store} (h : IdsDistinct students) (call : Call) :
    IdsDistinct (step students call) := by
  obtain ⟨ht, hp⟩ := h
  cases call with
  | add name id age major =>
    rcases ids_addStudent name id age major students with hs | ⟨hid, hnew, hs⟩
    · simp only [step, IdsDistinct, hs]
      exact ⟨ht, hp⟩
    · simp only [step, IdsDistinct, hs]
      constructor
      · intro v hv
        rcases List.mem_append.mp hv with hv | hv
        · exact ht v hv
        · rw [List.mem_singleton.mp hv]
          exact hid
      · rw [List.pairwise_append]
        refine ⟨hp, List.pairwise_singleton _ _, ?_⟩
        intro a ha b hb
        rw [List.mem_singleton.mp hb]
        exact hnew a ha
  | query id =>
    simp only [step, queryStudent_store]
    exact ⟨ht, hp⟩
  | update id age major =>
    simp only [step, IdsDistinct, ids_updateStudent]
    exact ⟨ht, hp⟩
  | delete id =>
    rcases deleteStudent_store id students with hs | hs
    · simp only [step, hs]
      exact ⟨ht, hp⟩
    · simp only [step, IdsDistinct, hs]
      have hsub : (ids (students.eraseIdx (students.findIdx (hasId id)))).Sublist (ids students) :=
        (List.eraseIdx_sublist students _).map _
      exact ⟨fun v hv => ht v (hsub.subset hv), hp.sublist hsub⟩
  | showAll =>
    simp only [step, showAllStudents]
    exact ⟨ht, hp⟩

lemma idsDistinct_foldl (calls : List Call) :
    ∀ students : Store, IdsDistinct students → IdsDistinct (calls.foldl step students) := by
  induction calls with
  | nil => intro students h; exact h
  | cons call rest ih =>
    intro students h
    exact ih _ (idsDistinct_step h call)

lemma idsDistinct_run (calls : List Call) : IdsDistinct (run calls) :=
  idsDistinct_foldl calls [] idsDistinct_nil

lemma idsDistinct_of_reachable {students : Store} (h : Reachable students) :
    IdsDistinct students := by
  obtain ⟨calls, rfl⟩ := h
  exact idsDistinct_run calls

/-- In a list whose entries are pairwise related by a symmetric relation, the entry at a
position is related to every entry that remains when that position is erased. -/
lemma rel_of_mem_eraseIdx {α : Type} {R : α → α → Prop} (hsymm : ∀ a b, R a b → R b a) :
    ∀ (l : List α) (i : Nat) (h : i < l.length), l.Pairwise R →
      ∀ v ∈ l.eraseIdx i, R (l[i]) v := by
  intro l
  induction l with
  | nil => intro i h; simp at h
  | cons a l ih =>
    intro i h hp v hv
    rw [List.pairwise_cons] at hp
    cases i with
    | zero =>
      simp only [List.eraseIdx_cons_zero] at hv
      simpa using hp.1 v hv
    | succ i =>
      simp only [List.eraseIdx_cons_succ, List.mem_cons] at hv
      have hi : i < l.length := by simpa using h
      rcases hv with rfl | hv
      · simpa using hsymm _ _ (hp.1 _ (List.getElem_mem hi))
      · simpa using ih i hi hp.2 v hv

/-! ## Properties of the record store -/

/-- C1: id uniqueness is an invariant of the reachable stores.  After any finite sequence
of `addStudent`, `queryStudent`, `updateStudent`, `deleteStudent` and `showAllStudents`
calls with arbitrary arguments, starting from the empty store, any two records at
different positions of the store have ids that are not `===` to each other, and that are
different values. -/
theorem id_unique_reachable (calls : List Call) :
    (run calls).Pairwise (fun a b => strictEq a.id b.id = false ∧ a.id ≠ b.id) := by
  obtain ⟨ht, hp⟩ := idsDistinct_run calls
  have hp1 : (run calls).Pairwise (fun a b => strictEq a.id b.id = false) := by
    simpa [ids, List.pairwise_map] using hp
  refine hp1.imp_of_mem ?_
  intro a b ha _ hab
  refine ⟨hab, ?_⟩
  intro heq
  have hta : truthy a.id = true := ht a.id (List.mem_map_of_mem _ ha)
  rw [← heq, strictEq_self hta] at hab
  exact absurd hab (by decide)

/-- C2: `addStudent` followed by `queryStudent` with the same id.  For every store and
all valid inputs (truthy name, id and major, an id that no record of the store has, an
age that parses to a positive integer `n`), the add succeeds and returns the record
`{name, id, n, major}`, and the query that follows succeeds, returns that same record,
and leaves the store as the add left it. -/
theorem add_then_query (students : Store) (name id age major : JSVal) (n : Int)
    (hname : truthy name = true) (hid : truthy id = true) (hmajor : truthy major = true)
    (hnew : ∀ r ∈ students, strictEq r.id id = false)
    (hage : parseInt age = .int n) (hpos : 0 < n) :
    (addStudent name id age major students).1.success = true ∧
      (addStudent name id age major students).1.student =
        some { name := name, id := id, age := .int n, major := major } ∧
      queryStudent id (addStudent name id age major students).2 =
        ({ success := true, message := none,
           student := some { name := name, id := id, age := .int n, major := major } },
         (addStudent name id age major students).2) := by
  have hacc : ((parseInt age).isNaN || (parseInt age).leZero) = false := by
    rw [hage]
    simp [JSNum.isNaN, JSNum.leZero, hpos]
  have htage : truthy age = true := truthy_of_accepted hacc
  have hfind : students.find? (hasId id) = none := by
    rw [List.find?_eq_none]
    intro r hr
    simp [hasId, hnew r hr]
  have hadd : addStudent name id age major students =
      ({ success := true, message := some (msgAdded name),
         student := some { name := name, id := id, age := .int n, major := major } },
       students ++ [{ name := name, id := id, age := .int n, major := major }]) := by
    rw [addStudent_eq]
    simp [hname, hid, htage, hmajor, hfind, hage, JSNum.isNaN, JSNum.leZero, hpos]
  rw [hadd]
  refine ⟨rfl, rfl, ?_⟩
  simp [queryStudent, hid, hfind, hasId, strictEq_self hid]

/-- Witness of C2: a student added to the empty store is found by the query that follows. -/
theorem add_then_query_witness :
    (addStudent (.str "Alice") (.str "S1") (.str "20") (.str "CS") []).1.success = true ∧
      (addStudent (.str "Alice") (.str "S1") (.str "20") (.str "CS") []).1.student =
        some { name := .str "Alice", id := .str "S1", age := .int 20, major := .str "CS" } ∧
      queryStudent (.str "S1")
          (addStudent (.str "Alice") (.str "S1") (.str "20") (.str "CS") []).2 =
        ({ success := true, message := none,
           student := some { name := .str "Alice", id := .str "S1", age := .int 20,
                             major := .str "CS" } },
         (addStudent (.str "Alice") (.str "S1") (.str "20") (.str "CS") []).2) :=
  add_then_query [] (.str "Alice") (.str "S1") (.str "20") (.str "CS") 20
    (by decide) (by decide) (by decide) (by simp) (by decide) (by decide)

/-- C3: adding two records with the same id.  For every store in which a first
`addStudent` with id `id` succeeded, a second `addStudent` with the same id and any truthy
name, age and major fails with the duplicate-id message, and the store after the second
call is the store before it: same records, same size. -/
theorem add_duplicate_fails (students : Store) (name1 age1 major1 id name2 age2 major2 : JSVal)
    (hfirst : (addStudent name1 id age1 major1 students).1.success = true)
    (hname : truthy name2 = true) (hage : truthy age2 = true) (hmajor : truthy major2 = true) :
    (addStudent name2 id age2 major2 (addStudent name1 id age1 major1 students).2).1 =
        failure (msgDuplicate id) ∧
      (addStudent name2 id age2 major2 (addStudent name1 id age1 major1 students).2).2 =
        (addStudent name1 id age1 major1 students).2 ∧
      (addStudent name2 id age2 major2 (addStudent name1 id age1 major1 students).2).2.length =
        (addStudent name1 id age1 major1 students).2.length := by
  have h1 := addStudent_eq name1 id age1 major1 students
  split_ifs at h1 with c1 c2 c3
  · rw [h1] at hfirst; simp [failure] at hfirst
  · rw [h1] at hfirst; simp [failure] at hfirst
  · rw [h1] at hfirst; simp [failure] at hfirst
  · have hid : truthy id = true := by
      have := not_or.mp c1
      simpa using (not_or.mp this.2).1
    have hfound :
        ((students ++ [({ name := name1, id := id, age := parseInt age1, major := major1 } :
          Student)]).find? (hasId id)).isSome = true := by
      rw [List.find?_isSome]
      exact ⟨_, List.mem_append_right _ (List.mem_singleton_self _), by
        simpa [hasId] using strictEq_self hid⟩
    have h2 : addStudent name2 id age2 major2 (addStudent name1 id age1 major1 students).2 =
        (failure (msgDuplicate id), (addStudent name1 id age1 major1 students).2) := by
      rw [h1, addStudent_eq]
      rw [if_neg (by simp [hname, hid, hage, hmajor]), if_pos hfound]
    rw [h2]
    exact ⟨rfl, rfl, rfl⟩

/-- Witness of C3: a second student with the id of the first one is refused. -/
theorem add_duplicate_fails_witness :
    (addStudent (.str "Bob") (.str "S1") (.str "22") (.str "EE")
        (addStudent (.str "Alice") (.str "S1") (.str "20") (.str "CS") []).2).1 =
        failure (msgDuplicate (.str "S1")) ∧
      (addStudent (.str "Bob") (.str "S1") (.str "22") (.str "EE")
        (addStudent (.str "Alice") (.str "S1") (.str "20") (.str "CS") []).2).2 =
        (addStudent (.str "Alice") (.str "S1") (.str "20") (.str "CS") []).2 ∧
      (addStudent (.str "Bob") (.str "S1") (.str "22") (.str "EE")
        (addStudent (.str "Alice") (.str "S1") (.str "20") (.str "CS") []).2).2.length =
        (addStudent (.str "Alice") (.str "S1") (.str "20") (.str "CS") []).2.length :=
  add_duplicate_fails [] (.str "Alice") (.str "20") (.str "CS") (.str "S1") (.str "Bob")
    (.str "22") (.str "EE") (by decide) (by decide) (by decide) (by decide)

lemma aliceStore_reachable : Reachable aliceStore :=
  ⟨[.add (.str "Alice") (.str "S1") (.num (.int 20)) (.str "CS")], by decide⟩

lemma id_truthy_of_mem {students : Store} (hr : Reachable students) {r : Student}
    (h : r ∈ students) : truthy r.id = true :=
  (idsDistinct_of_reachable hr).1 r.id (List.mem_map_of_mem _ h)

lemma present_of_mem {students : Store} {id : JSVal}
    (hstore : Reachable students ∨ truthy id = true) (hmem : ∃ r ∈ students, r.id = id) :
    truthy id = true ∧ students.findIdx (hasId id) < students.length := by
  obtain ⟨r, hrmem, rfl⟩ := hmem
  have hid : truthy r.id = true := by
    rcases hstore with hr | hid
    · exact id_truthy_of_mem hr hrmem
    · exact hid
  refine ⟨hid, ?_⟩
  rw [List.findIdx_lt_length]
  exact ⟨r, hrmem, by simpa [hasId] using strictEq_self hid⟩

/-- C4: `deleteStudent` followed by `queryStudent` on the same id.  For every store
reachable from the empty store and every id, if `deleteStudent(id)` succeeds then the
`queryStudent(id)` that follows fails with the not-found message. -/
theorem delete_then_query (students : Store) (hr : Reachable students) (id : JSVal)
    (hdel : (deleteStudent id students).1.success = true) :
    (queryStudent id (deleteStudent id students).2).1 = failure (msgNotFound id) := by
  have hid : truthy id = true := by
    cases ht : truthy id
    · rw [deleteStudent_falsy_id students ht] at hdel
      simp [failure] at hdel
    · rfl
  have hidx : students.findIdx (hasId id) < students.length := by
    by_contra hcon
    rw [deleteStudent_absent hid hcon] at hdel
    simp [failure] at hdel
  rw [deleteStudent_ok hid hidx]
  have hp : students.Pairwise (fun a b => strictEq a.id b.id = false) := by
    simpa [ids, List.pairwise_map] using (idsDistinct_of_reachable hr).2
  have hat : (students[students.findIdx (hasId id)]).id = id :=
    strictEq_eq (List.findIdx_getElem (w := hidx))
  have hnone : (students.eraseIdx (students.findIdx (hasId id))).find? (hasId id) = none := by
    rw [List.find?_eq_none]
    intro x hx
    have h1 : strictEq (students[students.findIdx (hasId id)]).id x.id = false :=
      rel_of_mem_eraseIdx (R := fun a b : Student => strictEq a.id b.id = false)
        (fun a b => strictEq_comm_false) students _ hidx hp x hx
    rw [hat] at h1
    simp [hasId, strictEq_comm_false h1]
  simp [queryStudent, hid, hnone]

/-- Witness of C4: deleting the only record, then asking for it. -/
theorem delete_then_query_witness :
    Reachable aliceStore ∧ (deleteStudent (.str "S1") aliceStore).1.success = true ∧
      (queryStudent (.str "S1") (deleteStudent (.str "S1") aliceStore).2).1 =
        failure (msgNotFound (.str "S1")) :=
  ⟨aliceStore_reachable, by decide,
    delete_then_query aliceStore aliceStore_reachable (.str "S1") (by decide)⟩

/-- C5: `updateStudent` with both optional fields empty.  For every store that holds a
record with id `id`, `updateStudent(id, age, major)` with `age` and `major` each the empty
string or `undefined` fails with the no-fields message, and the store after the call, that
record included, is the store before it.  The stores are the reachable ones; any other
list of records will do as well when `id` is truthy. -/
theorem update_no_fields (students : Store) (id age major : JSVal)
    (hstore : Reachable students ∨ truthy id = true)
    (hmem : ∃ r ∈ students, r.id = id)
    (hage : age = .undefined ∨ age = .str "")
    (hmajor : major = .undefined ∨ major = .str "") :
    (updateStudent id age major students).1 = failure msgNoFields ∧
      (updateStudent id age major students).2 = students := by
  obtain ⟨hid, hidx⟩ := present_of_mem hstore hmem
  have ha : truthy age = false := by
    rcases hage with rfl | rfl <;> decide
  have hm : truthy major = false := by
    rcases hmajor with rfl | rfl <;> decide
  rw [updateStudent_no_fields hid hidx ha hm]
  exact ⟨rfl, rfl⟩

/-- Witness of C5: an update of Alice that gives neither an age nor a major. -/
theorem update_no_fields_witness :
    Reachable aliceStore ∧
      (updateStudent (.str "S1") (.str "") .undefined aliceStore).1 = failure msgNoFields ∧
      (updateStudent (.str "S1") (.str "") .undefined aliceStore).2 = aliceStore :=
  ⟨aliceStore_reachable,
    update_no_fields aliceStore (.str "S1") (.str "") .undefined
      (Or.inl aliceStore_reachable) ⟨_, List.mem_singleton_self _, rfl⟩ (Or.inr rfl)
      (Or.inl rfl)⟩

lemma addStudent_of_success {name id age major : JSVal} {students : Store}
    (h : (addStudent name id age major students).1.success = true) :
    addStudent name id age major students =
      ({ success := true, message := some (msgAdded name),
         student := some { name := name, id := id, age := parseInt age, major := major } },
       students ++ [{ name := name, id := id, age := parseInt age, major := major }]) := by
  have h1 := addStudent_eq name id age major students
  split_ifs at h1 with c1 c2 c3
  · rw [h1] at h; simp [failure] at h
  · rw [h1] at h; simp [failure] at h
  · rw [h1] at h; simp [failure] at h
  · exact h1

lemma addAll_of_success (args : List AddArgs) :
    ∀ students : Store, (∀ r ∈ (addAll args students).1, r.success = true) →
      (addAll args students).2 = students ++ args.map AddArgs.record ∧
        (addAll args students).1.map (fun r => r.student) =
          (args.map AddArgs.record).map some := by
  induction args with
  | nil => intro students _; simp [addAll]
  | cons a rest ih =>
    intro students h
    have hfirst : (addStudent a.name a.id a.age a.major students).1.success = true :=
      h _ (by simp [addAll])
    have hrest : ∀ r ∈ (addAll rest (addStudent a.name a.id a.age a.major students).2).1,
        r.success = true := by
      intro r hr
      exact h r (by simp [addAll, hr])
    obtain ⟨ih1, ih2⟩ := ih _ hrest
    have hadd := addStudent_of_success hfirst
    constructor
    · simp only [addAll, ih1]
      rw [hadd]
      simp [AddArgs.record]
    · simp only [addAll, List.map_cons, ih2]
      rw [hadd]
      simp [AddArgs.record]

/-- C6: `showAllStudents` on the empty store returns the empty sequence; and after any
number `N` of `addStudent` calls that all succeed, starting from the empty store,
`showAllStudents` returns exactly `N` records, the k-th of which is the record that the
k-th call returned, namely `{name, id, parseInt(age), major}` of the k-th call.  (Calls
that all succeed have pairwise distinct ids, so that need not be assumed.) -/
theorem showAll_after_adds (args : List AddArgs)
    (hsucc : ∀ r ∈ (addAll args []).1, r.success = true) :
    (showAllStudents []).1 = [] ∧
      (showAllStudents (addAll args []).2).1.length = args.length ∧
      (showAllStudents (addAll args []).2).1.map some =
        (addAll args []).1.map (fun r => r.student) ∧
      (showAllStudents (addAll args []).2).1 = args.map AddArgs.record := by
  obtain ⟨h1, h2⟩ := addAll_of_success args [] hsucc
  refine ⟨rfl, ?_, ?_, ?_⟩
  · simp [showAllStudents, h1]
  · simp only [showAllStudents, h1, h2, List.nil_append]
  · simp [showAllStudents, h1]

/-- Witness of C6: two adds, then the listing holds the two records in call order. -/
theorem showAll_after_adds_witness :
    (∀ r ∈ (addAll twoAdds []).1, r.success = true) ∧
      (showAllStudents []).1 = [] ∧
      (showAllStudents (addAll twoAdds []).2).1.length = twoAdds.length ∧
      (showAllStudents (addAll twoAdds []).2).1.map some =
        (addAll twoAdds []).1.map (fun r => r.student) ∧
      (showAllStudents (addAll twoAdds []).2).1 = twoAdds.map AddArgs.record :=
  ⟨by decide, showAll_after_adds twoAdds (by decide)⟩

lemma rejected_of_value {n : JSNum}
    (h : n = .nan ∨ (∃ z : Int, z ≤ 0 ∧ n = .int z) ∨ n = .inf true) :
    n.isNaN = true ∨ n.leZero = true := by
  rcases h with rfl | ⟨z, hz, rfl⟩ | rfl
  · exact Or.inl rfl
  · exact Or.inr (by simp [JSNum.leZero, hz])
  · exact Or.inr rfl

lemma accepted_of_value {n : JSNum}
    (h : (∃ z : Int, 0 < z ∧ n = .int z) ∨ n = .inf false) :
    ¬ (n.isNaN = true ∨ n.leZero = true) := by
  rcases h with ⟨z, hz, rfl⟩ | rfl
  · simp [JSNum.isNaN, JSNum.leZero, hz]
  · simp [JSNum.isNaN, JSNum.leZero]

lemma value_cases (n : JSNum) :
    (n = .nan ∨ (∃ z : Int, z ≤ 0 ∧ n = .int z) ∨ n = .inf true) ∨
      ((∃ z : Int, 0 < z ∧ n = .int z) ∨ n = .inf false) := by
  cases n with
  | nan => exact Or.inl (Or.inl rfl)
  | int z =>
    by_cases hz : z ≤ 0
    · exact Or.inl (Or.inr (Or.inl ⟨z, hz, rfl⟩))
    · exact Or.inr (Or.inl ⟨z, by omega, rfl⟩)
  | inf neg =>
    cases neg
    · exact Or.inr (Or.inr rfl)
    · exact Or.inl (Or.inr (Or.inr rfl))

set_option maxRecDepth 1000000 in
set_option exponentiation.threshold 2000 in
/-- C7, as stated, fails on an age beyond the range of the doubles: the age `1` followed by
309 zeros parses to `Infinity`, which is not a positive integer, and `addStudent` with that
age and otherwise valid fields does not fail with the invalid-age message: it succeeds and
appends a record whose age is `Infinity`. -/
theorem add_accepts_infinite_age :
    parseInt (.str hugeNumeral) = .inf false ∧
      (∀ z : Int, parseInt (.str hugeNumeral) ≠ .int z) ∧
      addStudent (.str "Bob") (.str "S2") (.str hugeNumeral) (.str "EE") aliceStore =
        ({ success := true, message := some (msgAdded (.str "Bob")),
           student := some { name := .str "Bob", id := .str "S2", age := .inf false,
                             major := .str "EE" } },
         aliceStore ++ [{ name := .str "Bob", id := .str "S2", age := .inf false,
                          major := .str "EE" }]) := by
  have h : parseInt (.str hugeNumeral) = .inf false := by decide
  refine ⟨h, ?_, by decide⟩
  intro z hz
  rw [h] at hz
  cases hz

/-- C7, amended: the contract of `addStudent(name, id, age, major)`, its checks taken in
the order in which they are listed.  It fails with the validation message if any of the
four fields is falsy (empty or missing); otherwise it fails with the duplicate-id message if
a record of the store has the id; otherwise it fails with the invalid-age message if
`parseInt(age)` is `NaN` (the age does not parse), zero or a negative number; in every
other case, which is `parseInt(age)` being a positive integer or `Infinity`, it succeeds,
the new store is the old store with the one record `{name, id, parseInt(age), major}`
appended at the end, and that record is the one returned.  A failed call leaves the store
as it is, and the two cases of the age are the only ones. -/
theorem addStudent_contract (name id age major : JSVal) (students : Store) :
    ((truthy name = false ∨ truthy id = false ∨ truthy age = false ∨ truthy major = false) →
        addStudent name id age major students = (failure msgIncomplete, students)) ∧
      (truthy name = true → truthy id = true → truthy age = true → truthy major = true →
        ((∃ r ∈ students, strictEq r.id id = true) →
          addStudent name id age major students = (failure (msgDuplicate id), students)) ∧
        ((∀ r ∈ students, strictEq r.id id = false) →
          (parseInt age = .nan ∨ (∃ z : Int, z ≤ 0 ∧ parseInt age = .int z) ∨
            parseInt age = .inf true) →
          addStudent name id age major students = (failure msgInvalidAge, students)) ∧
        ((∀ r ∈ students, strictEq r.id id = false) →
          ((∃ z : Int, 0 < z ∧ parseInt age = .int z) ∨ parseInt age = .inf false) →
          addStudent name id age major students =
            ({ success := true, message := some (msgAdded name),
               student := some { name := name, id := id, age := parseInt age, major := major } },
             students ++ [{ name := name, id := id, age := parseInt age, major := major }]))) ∧
      ((parseInt age = .nan ∨ (∃ z : Int, z ≤ 0 ∧ parseInt age = .int z) ∨
          parseInt age = .inf true) ∨
        ((∃ z : Int, 0 < z ∧ parseInt age = .int z) ∨ parseInt age = .inf false)) := by
  refine ⟨?_, ?_, value_cases (parseInt age)⟩
  · intro h
    rw [addStudent_eq, if_pos h]
  · intro hn hi ha hm
    have hall : ¬ (truthy name = false ∨ truthy id = false ∨ truthy age = false ∨
        truthy major = false) := by simp [hn, hi, ha, hm]
    refine ⟨?_, ?_, ?_⟩
    · rintro ⟨r, hr, hrid⟩
      have hfound : (students.find? (hasId id)).isSome = true := by
        rw [List.find?_isSome]
        exact ⟨r, hr, hrid⟩
      rw [addStudent_eq, if_neg hall, if_pos hfound]
    · intro hnew hbad
      have hfound : ¬ (students.find? (hasId id)).isSome = true := by
        rw [List.find?_isSome]
        rintro ⟨r, hr, hrid⟩
        rw [hasId, hnew r hr] at hrid
        exact absurd hrid (by decide)
      rw [addStudent_eq, if_neg hall, if_neg hfound, if_pos (rejected_of_value hbad)]
    · intro hnew hgood
      have hfound : ¬ (students.find? (hasId id)).isSome = true := by
        rw [List.find?_isSome]
        rintro ⟨r, hr, hrid⟩
        rw [hasId, hnew r hr] at hrid
        exact absurd hrid (by decide)
      rw [addStudent_eq, if_neg hall, if_neg hfound, if_neg (accepted_of_value hgood)]

/-- Witness of C7, amended: the four outcomes of `addStudent` on the store that holds
Alice. -/
theorem addStudent_contract_witness :
    addStudent (.str "") (.str "S2") (.str "22") (.str "EE") aliceStore =
        (failure msgIncomplete, aliceStore) ∧
      addStudent (.str "Bob") (.str "S1") (.str "22") (.str "EE") aliceStore =
        (failure (msgDuplicate (.str "S1")), aliceStore) ∧
      addStudent (.str "Bob") (.str "S2") (.str "abc") (.str "EE") aliceStore =
        (failure msgInvalidAge, aliceStore) ∧
      addStudent (.str "Bob") (.str "S2") (.str "22") (.str "EE") aliceStore =
        ({ success := true, message := some (msgAdded (.str "Bob")),
           student := some { name := .str "Bob", id := .str "S2",
                             age := parseInt (.str "22"), major := .str "EE" } },
         aliceStore ++ [{ name := .str "Bob", id := .str "S2",
                          age := parseInt (.str "22"), major := .str "EE" }]) :=
  ⟨(addStudent_contract (.str "") (.str "S2") (.str "22") (.str "EE") aliceStore).1
      (Or.inl (by decide)),
    ((addStudent_contract (.str "Bob") (.str "S1") (.str "22") (.str "EE") aliceStore).2.1
      (by decide) (by decide) (by decide) (by decide)).1
      ⟨_, List.mem_singleton_self _, by decide⟩,
    ((addStudent_contract (.str "Bob") (.str "S2") (.str "abc") (.str "EE") aliceStore).2.1
      (by decide) (by decide) (by decide) (by decide)).2.1
      (by decide) (Or.inl (by decide)),
    ((addStudent_contract (.str "Bob") (.str "S2") (.str "22") (.str "EE") aliceStore).2.1
      (by decide) (by decide) (by decide) (by decide)).2.2
      (by decide) (Or.inl ⟨22, by decide, by decide⟩)⟩

lemma find?_set_findIdx {students : Store} {id : JSVal} {r : Student}
    (h : students.findIdx (hasId id) < students.length) (hr : hasId id r = true) :
    (students.set (students.findIdx (hasId id)) r).find? (hasId id) = some r := by
  rw [List.find?_eq_some]
  refine ⟨hr, students.take (students.findIdx (hasId id)),
    students.drop (students.findIdx (hasId id) + 1), ?_, ?_⟩
  · exact List.set_eq_take_append_cons_drop.trans (by rw [if_pos h])
  · intro a ha
    obtain ⟨j, hj, rfl⟩ := List.getElem_of_mem ha
    have hj1 : j < students.findIdx (hasId id) :=
      lt_of_lt_of_le hj (List.length_take_le _ _)
    rw [List.getElem_take]
    simpa using List.not_of_lt_findIdx hj1

/-- C8: a successful `updateStudent(id, age, major)` updates only the fields that are
given.  The call overwrites the first record `students[i]` whose id is `id` with a record
`r` that keeps its name and id, whose age is `parseInt(age)` if `age` is given (truthy) and
the old age otherwise, and whose major is `major` if `major` is given (truthy) and the old
major otherwise; every other position of the store holds the record it held, the store
keeps its length, and the returned record `r` is the record that `queryStudent(id)` then
finds. -/
theorem update_success_frame (students : Store) (id age major : JSVal)
    (hsucc : (updateStudent id age major students).1.success = true) :
    ∃ (i : Nat) (hi : i < students.length) (r : Student),
      strictEq (students[i]).id id = true ∧
      (∀ (j : Nat) (hj : j < students.length), j < i → strictEq (students[j]).id id = false) ∧
      (updateStudent id age major students).1.student = some r ∧
      (updateStudent id age major students).2 = students.set i r ∧
      r.name = (students[i]).name ∧ r.id = (students[i]).id ∧
      r.age = (if truthy age = true then parseInt age else (students[i]).age) ∧
      r.major = (if truthy major = true then major else (students[i]).major) ∧
      (updateStudent id age major students).2.length = students.length ∧
      (∀ j : Nat, j ≠ i → (updateStudent id age major students).2[j]? = students[j]?) ∧
      (updateStudent id age major students).2[i]? = some r ∧
      (queryStudent id (updateStudent id age major students).2).1.student = some r := by
  rcases updateStudent_cases id age major students with ⟨hf, _⟩ | ⟨h, hid, _, _, heq⟩
  · rw [hf] at hsucc
    exact absurd hsucc (by decide)
  · have hat : hasId id (students[students.findIdx (hasId id)]) = true :=
      List.findIdx_getElem (w := h)
    refine ⟨students.findIdx (hasId id), h,
      updatedRecord (students[students.findIdx (hasId id)]) age major, hat, ?_, ?_, ?_,
      rfl, rfl, rfl, rfl, ?_, ?_, ?_, ?_⟩
    · intro j hj hlt
      simpa [hasId] using List.not_of_lt_findIdx hlt
    · rw [heq]
    · rw [heq]
    · rw [heq]
      simp
    · intro j hj
      rw [heq]
      simp [List.getElem?_set_ne (Ne.symm hj)]
    · rw [heq]
      simp [List.getElem?_set_self h]
    · rw [heq]
      have hr : hasId id (updatedRecord (students[students.findIdx (hasId id)]) age major)
          = true := hat
      simp [queryStudent, hid, find?_set_findIdx h hr]

/-- Witness of C8: Alice changes her major and keeps her age. -/
theorem update_success_frame_witness :
    (updateStudent (.str "S1") .undefined (.str "EE") aliceStore).1.success = true ∧
    ∃ (i : Nat) (hi : i < aliceStore.length) (r : Student),
      strictEq (aliceStore[i]).id (.str "S1") = true ∧
      (∀ (j : Nat) (hj : j < aliceStore.length), j < i →
        strictEq (aliceStore[j]).id (.str "S1") = false) ∧
      (updateStudent (.str "S1") .undefined (.str "EE") aliceStore).1.student = some r ∧
      (updateStudent (.str "S1") .undefined (.str "EE") aliceStore).2 = aliceStore.set i r ∧
      r.name = (aliceStore[i]).name ∧ r.id = (aliceStore[i]).id ∧
      r.age = (if truthy .undefined = true then parseInt .undefined else (aliceStore[i]).age) ∧
      r.major = (if truthy (.str "EE") = true then .str "EE" else (aliceStore[i]).major) ∧
      (updateStudent (.str "S1") .undefined (.str "EE") aliceStore).2.length
        = aliceStore.length ∧
      (∀ j : Nat, j ≠ i →
        (updateStudent (.str "S1") .undefined (.str "EE") aliceStore).2[j]? = aliceStore[j]?) ∧
      (updateStudent (.str "S1") .undefined (.str "EE") aliceStore).2[i]? = some r ∧
      (queryStudent (.str "S1")
        (updateStudent (.str "S1") .undefined (.str "EE") aliceStore).2).1.student = some r :=
  ⟨by decide, update_success_frame aliceStore (.str "S1") .undefined (.str "EE") (by decide)⟩

/-- C9: `updateStudent` with an age that is given and is not a positive integer.  For
every store that holds a record with id `id`, `updateStudent(id, age, major)` with a truthy
`age` such that `parseInt(age)` is `NaN` (it does not parse) or is zero or negative fails
with the invalid-age message, whatever `major` is, and the store after the call is the
store before it: the major is not updated.  The stores are the reachable ones; any other
list of records will do as well when `id` is truthy. -/
theorem update_invalid_age (students : Store) (id age major : JSVal)
    (hstore : Reachable students ∨ truthy id = true)
    (hmem : ∃ r ∈ students, r.id = id)
    (hprov : truthy age = true)
    (hbad : (parseInt age).isNaN = true ∨ (parseInt age).leZero = true) :
    (updateStudent id age major students).1 = failure msgInvalidAge ∧
      (updateStudent id age major students).2 = students := by
  obtain ⟨hid, hidx⟩ := present_of_mem hstore hmem
  have hp : ((parseInt age).isNaN || (parseInt age).leZero) = true := by
    simpa using hbad
  rw [updateStudent_invalid_age major hid hidx hprov hp]
  exact ⟨rfl, rfl⟩

/-- Witness of C9: an update of Alice with the age `-5` and a new major is refused. -/
theorem update_invalid_age_witness :
    Reachable aliceStore ∧
      (updateStudent (.str "S1") (.str "-5") (.str "EE") aliceStore).1
        = failure msgInvalidAge ∧
      (updateStudent (.str "S1") (.str "-5") (.str "EE") aliceStore).2 = aliceStore :=
  ⟨aliceStore_reachable,
    update_invalid_age aliceStore (.str "S1") (.str "-5") (.str "EE")
      (Or.inl aliceStore_reachable) ⟨_, List.mem_singleton_self _, rfl⟩ (by decide)
      (Or.inr (by decide))⟩

/-- C10, as stated, fails on the empty id: no record of the store that holds Alice has
the id `""`, and `deleteStudent("")` fails with the message that asks for an id, which is
not the not-found message. -/
theorem delete_empty_id_not_notFound :
    (∀ r ∈ aliceStore, strictEq r.id (.str "") = false) ∧
      deleteStudent (.str "") aliceStore = (failure msgEnterId, aliceStore) ∧
      (deleteStudent (.str "") aliceStore).1 ≠ failure (msgNotFound (.str "")) := by
  decide

/-- C10, amended: `deleteStudent(id)` fails with the message that asks for an id if `id` is
falsy (empty or missing), and with the not-found message if `id` is truthy and no record
has that id; the store is unchanged in both cases.  Otherwise it removes exactly the first
record `students[i]` whose id is `id`, the only one in a reachable store: the records
before and after it remain, in their order, the size drops by one, and the message of the
result carries the name of the removed record. -/
theorem deleteStudent_contract (students : Store) (id : JSVal) :
    (truthy id = false → deleteStudent id students = (failure msgEnterId, students)) ∧
      (truthy id = true → (∀ r ∈ students, strictEq r.id id = false) →
        deleteStudent id students = (failure (msgNotFound id), students)) ∧
      (truthy id = true → ∀ (i : Nat) (hi : i < students.length),
        strictEq (students[i]).id id = true →
        (∀ (j : Nat) (hj : j < students.length), j < i → strictEq (students[j]).id id = false) →
        deleteStudent id students =
            ({ success := true, message := some (msgDeleted (students[i]).name),
               student := none },
             students.take i ++ students.drop (i + 1)) ∧
          (deleteStudent id students).2.length + 1 = students.length ∧
          (Reachable students →
            ∀ r ∈ (deleteStudent id students).2, strictEq r.id id = false)) := by
  refine ⟨fun h => deleteStudent_falsy_id students h, ?_, ?_⟩
  · intro hid hnone
    apply deleteStudent_absent hid
    rw [List.findIdx_lt_length]
    rintro ⟨r, hr, hrid⟩
    rw [hasId, hnone r hr] at hrid
    exact absurd hrid (by decide)
  · intro hid i hi hat hbefore
    have hidx : students.findIdx (hasId id) = i := by
      rw [List.findIdx_eq hi]
      exact ⟨hat, fun j hji => by
        simpa [hasId] using hbefore j (lt_trans hji hi) hji⟩
    have hlt : students.findIdx (hasId id) < students.length := by
      rw [hidx]
      exact hi
    have hdel := deleteStudent_ok hid hlt
    simp only [hidx] at hdel
    refine ⟨?_, ?_, ?_⟩
    · rw [hdel, List.eraseIdx_eq_take_drop_succ]
    · rw [hdel]
      simp only [List.length_eraseIdx, if_pos hi]
      omega
    · intro hr r hrmem
      rw [hdel] at hrmem
      have hp : students.Pairwise (fun a b => strictEq a.id b.id = false) := by
        simpa [ids, List.pairwise_map] using (idsDistinct_of_reachable hr).2
      have h1 : strictEq (students[i]).id r.id = false :=
        rel_of_mem_eraseIdx (R := fun a b : Student => strictEq a.id b.id = false)
          (fun a b => strictEq_comm_false) students i hi hp r hrmem
      rw [strictEq_eq hat] at h1
      exact strictEq_comm_false h1

lemma aliceBobStore_reachable : Reachable aliceBobStore :=
  ⟨[.add (.str "Alice") (.str "S1") (.num (.int 20)) (.str "CS"),
    .add (.str "Bob") (.str "S2") (.str "22") (.str "EE")], by decide⟩

/-- Witness of C10, amended: the three outcomes of `deleteStudent` on the store that holds
Alice and Bob. -/
theorem deleteStudent_contract_witness :
    deleteStudent (.str "") aliceBobStore = (failure msgEnterId, aliceBobStore) ∧
      deleteStudent (.str "S3") aliceBobStore =
        (failure (msgNotFound (.str "S3")), aliceBobStore) ∧
      (deleteStudent (.str "S1") aliceBobStore =
          ({ success := true, message := some (msgDeleted (.str "Alice")), student := none },
           [{ name := .str "Bob", id := .str "S2", age := .int 22, major := .str "EE" }]) ∧
        (deleteStudent (.str "S1") aliceBobStore).2.length + 1 = aliceBobStore.length ∧
        (Reachable aliceBobStore →
          ∀ r ∈ (deleteStudent (.str "S1") aliceBobStore).2,
            strictEq r.id (.str "S1") = false)) :=
  ⟨(deleteStudent_contract aliceBobStore (.str "")).1 (by decide),
    (deleteStudent_contract aliceBobStore (.str "S3")).2.1 (by decide) (by decide),
    (deleteStudent_contract aliceBobStore (.str "S1")).2.2 (by decide) 0 (by decide)
      (by decide) (by simp)⟩

/-! ## Messages: the error kinds are told apart by their first character -/

lemma msgDuplicate_ne_invalidAge (id : JSVal) : msgDuplicate id ≠ msgInvalidAge := by
  intro h
  have h1 := congrArg (fun s : String => s.data.head?) h
  simp [msgDuplicate, msgInvalidAge, String.data_append] at h1

lemma msgNotFound_ne (id : JSVal) :
    msgNotFound id ≠ msgNoFields ∧ msgNotFound id ≠ msgInvalidAge ∧
      msgNotFound id ≠ msgEnterId := by
  refine ⟨?_, ?_, ?_⟩ <;>
  · intro h
    have h1 := congrArg (fun s : String => s.data.head?) h
    simp [msgNotFound, msgNoFields, msgInvalidAge, msgEnterId, String.data_append] at h1

lemma queryStudent_falsy_id {id : JSVal} (students : Store) (hid : truthy id = false) :
    queryStudent id students = (failure msgEnterId, students) := by
  simp [queryStudent, hid]

lemma queryStudent_absent {id : JSVal} {students : Store} (hid : truthy id = true)
    (h : ∀ r ∈ students, strictEq r.id id = false) :
    queryStudent id students = (failure (msgNotFound id), students) := by
  have hfind : students.find? (hasId id) = none := by
    rw [List.find?_eq_none]
    intro r hr
    simp [hasId, h r hr]
  simp [queryStudent, hid, hfind]

lemma queryStudent_found {id : JSVal} {students : Store} (hid : truthy id = true)
    {i : Nat} (hi : i < students.length) (hat : strictEq (students[i]).id id = true)
    (hbefore : ∀ (j : Nat) (hj : j < students.length), j < i →
      strictEq (students[j]).id id = false) :
    queryStudent id students =
      ({ success := true, message := none, student := some (students[i]) }, students) := by
  have hfind : students.find? (hasId id) = some (students[i]) := by
    rw [List.find?_eq_some]
    refine ⟨hat, students.take i, students.drop (i + 1), ?_, ?_⟩
    · rw [List.getElem_cons_drop, List.take_append_drop]
    · intro a ha
      obtain ⟨j, hj, rfl⟩ := List.getElem_of_mem ha
      have hj1 : j < i := lt_of_lt_of_le hj (List.length_take_le _ _)
      rw [List.getElem_take]
      simpa [hasId] using hbefore j (lt_trans hj1 hi) hj1
  simp [queryStudent, hid, hfind]

/-- C11, as stated, fails on the empty id: no record of the store that holds Alice has the
id `""`, and `queryStudent("")` fails with the message that asks for an id, which is not
the not-found message. -/
theorem query_empty_id_not_notFound :
    (∀ r ∈ aliceStore, strictEq r.id (.str "") = false) ∧
      queryStudent (.str "") aliceStore = (failure msgEnterId, aliceStore) ∧
      (queryStudent (.str "") aliceStore).1 ≠ failure (msgNotFound (.str "")) := by
  decide

/-- C11, amended: for every store, `queryStudent(id)` fails with the message that asks for
an id if `id` is falsy (the empty string included); for a truthy `id` it fails with the
not-found message if no record of the store has an id `===` to `id`, and otherwise succeeds
and returns the first record `students[i]` with that id, the only one in a reachable store.
In every case the store after the call is the store before it. -/
theorem queryStudent_contract (students : Store) (id : JSVal) :
    (truthy id = false → queryStudent id students = (failure msgEnterId, students)) ∧
      (truthy id = true → (∀ r ∈ students, strictEq r.id id = false) →
        queryStudent id students = (failure (msgNotFound id), students)) ∧
      (truthy id = true → ∀ (i : Nat) (hi : i < students.length),
        strictEq (students[i]).id id = true →
        (∀ (j : Nat) (hj : j < students.length), j < i → strictEq (students[j]).id id = false) →
        queryStudent id students =
          ({ success := true, message := none, student := some (students[i]) }, students)) ∧
      (queryStudent id students).2 = students :=
  ⟨fun h => queryStudent_falsy_id students h, fun hid h => queryStudent_absent hid h,
    fun hid _ hi hat hbefore => queryStudent_found hid hi hat hbefore,
    queryStudent_store id students⟩

/-- Witness of C11, amended: the three outcomes of `queryStudent` on the store that holds
Alice and Bob. -/
theorem queryStudent_contract_witness :
    queryStudent (.str "") aliceBobStore = (failure msgEnterId, aliceBobStore) ∧
      queryStudent (.str "S3") aliceBobStore =
        (failure (msgNotFound (.str "S3")), aliceBobStore) ∧
      queryStudent (.str "S2") aliceBobStore =
        ({ success := true, message := none,
           student := some { name := .str "Bob", id := .str "S2", age := .int 22,
                             major := .str "EE" } },
         aliceBobStore) :=
  ⟨(queryStudent_contract aliceBobStore (.str "")).1 (by decide),
    (queryStudent_contract aliceBobStore (.str "S3")).2.1 (by decide) (by decide),
    (queryStudent_contract aliceBobStore (.str "S2")).2.2.1 (by decide) 1 (by decide)
      (by decide) (by decide)⟩

/-- C12, at the failing input: `queryStudent("S1")` on the store that holds Alice succeeds
and its result object has no `message`, while the successful `addStudent`, `updateStudent`
and `deleteStudent` calls on the same store all carry one.  In the shell, which logs
`result.message` of every query, the query of Alice after she is added logs `undefined`
before it logs her record. -/
theorem query_success_without_message :
    (queryStudent (.str "S1") aliceStore).1 =
        { success := true, message := none,
          student := some { name := .str "Alice", id := .str "S1", age := .int 20,
                            major := .str "CS" } } ∧
      (addStudent (.str "Bob") (.str "S2") (.str "22") (.str "EE") aliceStore).1.message =
        some (msgAdded (.str "Bob")) ∧
      (updateStudent (.str "S1") (.str "21") (.str "") aliceStore).1.message =
        some (msgUpdated (.str "Alice")) ∧
      (deleteStudent (.str "S1") aliceStore).1.message = some (msgDeleted (.str "Alice")) ∧
      (sessionEvents ["1", "Alice", "S1", "20", "CS", "2", "S1"]).drop 17 =
        [.called (.query (.str "S1")), .logMessage none,
         .logStudent "学生信息:"
           { name := .str "Alice", id := .str "S1", age := .int 20, major := .str "CS" },
         .question menuQuery, .prompt menuQuery] := by
  decide

/-- C14: the scenario from the empty store.  `addStudent("Alice","S1",20,"CS")` succeeds
and the store is `[{Alice,S1,20,CS}]`; then `updateStudent("S1",21,undefined)` succeeds
and the store is `[{Alice,S1,21,CS}]`; then `deleteStudent("S1")` succeeds and the store
is empty. -/
theorem scenario_add_update_delete :
    (addStudent (.str "Alice") (.str "S1") (.num (.int 20)) (.str "CS") []).1.success = true ∧
      (addStudent (.str "Alice") (.str "S1") (.num (.int 20)) (.str "CS") []).2 =
        [{ name := .str "Alice", id := .str "S1", age := .int 20, major := .str "CS" }] ∧
      (updateStudent (.str "S1") (.num (.int 21)) .undefined
        [{ name := .str "Alice", id := .str "S1", age := .int 20, major := .str "CS" }]
        ).1.success = true ∧
      (updateStudent (.str "S1") (.num (.int 21)) .undefined
        [{ name := .str "Alice", id := .str "S1", age := .int 20, major := .str "CS" }]).2 =
        [{ name := .str "Alice", id := .str "S1", age := .int 21, major := .str "CS" }] ∧
      (deleteStudent (.str "S1")
        [{ name := .str "Alice", id := .str "S1", age := .int 21, major := .str "CS" }]
        ).1.success = true ∧
      (deleteStudent (.str "S1")
        [{ name := .str "Alice", id := .str "S1", age := .int 21, major := .str "CS" }]).2 =
        [] ∧
      run [.add (.str "Alice") (.str "S1") (.num (.int 20)) (.str "CS"),
           .update (.str "S1") (.num (.int 21)) .undefined,
           .delete (.str "S1")] = [] := by
  decide

lemma deleteStudent_cases (id : JSVal) (students : Store) :
    ((deleteStudent id students).1.success = false ∧ (deleteStudent id students).2 = students) ∨
      (deleteStudent id students).1.success = true := by
  by_cases hid : truthy id = true
  · by_cases h : students.findIdx (hasId id) < students.length
    · rw [deleteStudent_ok hid h]
      exact Or.inr rfl
    · rw [deleteStudent_absent hid h]
      exact Or.inl ⟨rfl, rfl⟩
  · rw [deleteStudent_falsy_id students (by simpa using hid)]
    exact Or.inl ⟨rfl, rfl⟩

/-- C18: atomicity on failure.  For every store and every input, whenever `addStudent`,
`updateStudent`, `deleteStudent` or `queryStudent` returns a result whose `success` is
false, the store after the call is the store before it: same records, same order. -/
theorem failure_keeps_store (students : Store) (name id age major : JSVal) :
    ((addStudent name id age major students).1.success = false →
        (addStudent name id age major students).2 = students) ∧
      ((updateStudent id age major students).1.success = false →
        (updateStudent id age major students).2 = students) ∧
      ((deleteStudent id students).1.success = false →
        (deleteStudent id students).2 = students) ∧
      ((queryStudent id students).1.success = false →
        (queryStudent id students).2 = students) := by
  refine ⟨?_, ?_, ?_, fun _ => queryStudent_store id students⟩
  · intro h
    have h1 := addStudent_eq name id age major students
    split_ifs at h1 with c1 c2 c3
    · rw [h1]
    · rw [h1]
    · rw [h1]
    · rw [h1] at h
      simp at h
  · intro h
    rcases updateStudent_cases id age major students with ⟨_, hs⟩ | ⟨_, _, _, _, heq⟩
    · exact hs
    · rw [heq] at h
      simp at h
  · intro h
    rcases deleteStudent_cases id students with ⟨_, hs⟩ | hs
    · exact hs
    · rw [hs] at h
      simp at h

/-- Witness of C18: four failing calls on the store that holds Alice. -/
theorem failure_keeps_store_witness :
    (addStudent (.str "Bob") (.str "S1") (.str "22") (.str "EE") aliceStore).2 = aliceStore ∧
      (updateStudent (.str "S1") (.str "abc") (.str "EE") aliceStore).2 = aliceStore ∧
      (deleteStudent (.str "S9") aliceStore).2 = aliceStore ∧
      (queryStudent (.str "S9") aliceStore).2 = aliceStore :=
  ⟨(failure_keeps_store aliceStore (.str "Bob") (.str "S1") (.str "22") (.str "EE")).1
      (by decide),
    (failure_keeps_store aliceStore (.str "Bob") (.str "S1") (.str "abc") (.str "EE")).2.1
      (by decide),
    (failure_keeps_store aliceStore (.str "Bob") (.str "S9") (.str "22") (.str "EE")).2.2.1
      (by decide),
    (failure_keeps_store aliceStore (.str "Bob") (.str "S9") (.str "22") (.str "EE")).2.2.2
      (by decide)⟩

/-- C19, as stated, fails on the empty id: no record of the store that holds Alice has the
id `""`, and `updateStudent("", "", "")`, both optional fields empty, reports the message
that asks for an id, which is not the not-found message. -/
theorem update_empty_id_not_notFound :
    (∀ r ∈ aliceStore, strictEq r.id (.str "") = false) ∧
      updateStudent (.str "") (.str "") (.str "") aliceStore =
        (failure msgEnterId, aliceStore) ∧
      (updateStudent (.str "") (.str "") (.str "") aliceStore).1 ≠
        failure (msgNotFound (.str "")) := by
  decide

lemma msgIncomplete_ne_duplicate (id : JSVal) : msgIncomplete ≠ msgDuplicate id := by
  intro h
  have h1 := congrArg (fun s : String => s.data.head?) h
  simp [msgDuplicate, msgIncomplete, String.data_append] at h1

/-- C19, amended: error precedence.  `addStudent` checks missing fields first, then the
duplicate id, then the age.  A call with a falsy field reports the missing-field message,
whatever the store and the other arguments are, so also when the id is already in the store
and the age does not parse; a call with all fields truthy and an id already in the store
reports the duplicate-id message, whatever the age is, so also when it does not parse; a
call with all fields truthy, a new id and an age that parses to `NaN`, zero or a negative
number reports the invalid-age message.  `updateStudent` checks the id first.  A call with a
falsy (empty) id reports the message that asks for an id, and a call with a truthy id that
no record of the store has reports the not-found message, in both cases whatever `age` and
`major` are, both empty or an invalid age included.  The messages differ from one
another. -/
theorem error_precedence (students : Store) (name id age major : JSVal) :
    ((truthy name = false ∨ truthy id = false ∨ truthy age = false ∨ truthy major = false) →
        addStudent name id age major students = (failure msgIncomplete, students) ∧
          (addStudent name id age major students).1 ≠ failure (msgDuplicate id) ∧
          (addStudent name id age major students).1 ≠ failure msgInvalidAge) ∧
      (truthy name = true → truthy id = true → truthy age = true → truthy major = true →
        ((∃ r ∈ students, strictEq r.id id = true) →
          addStudent name id age major students = (failure (msgDuplicate id), students) ∧
            (addStudent name id age major students).1 ≠ failure msgInvalidAge) ∧
        ((∀ r ∈ students, strictEq r.id id = false) →
          ((parseInt age).isNaN = true ∨ (parseInt age).leZero = true) →
          addStudent name id age major students = (failure msgInvalidAge, students))) ∧
      (truthy id = false →
        updateStudent id age major students = (failure msgEnterId, students) ∧
          (updateStudent id age major students).1 ≠ failure (msgNotFound id) ∧
          (updateStudent id age major students).1 ≠ failure msgNoFields ∧
          (updateStudent id age major students).1 ≠ failure msgInvalidAge) ∧
      (truthy id = true → (∀ r ∈ students, strictEq r.id id = false) →
        updateStudent id age major students = (failure (msgNotFound id), students) ∧
          (updateStudent id age major students).1 ≠ failure msgNoFields ∧
          (updateStudent id age major students).1 ≠ failure msgInvalidAge) := by
  have hne : ∀ {a b : String}, a ≠ b → failure a ≠ failure b := by
    intro a b hab h
    exact hab (by simpa [failure] using h)
  refine ⟨?_, ?_, ?_, ?_⟩
  · intro h
    have hadd : addStudent name id age major students = (failure msgIncomplete, students) := by
      rw [addStudent_eq, if_pos h]
    rw [hadd]
    exact ⟨rfl, hne (msgIncomplete_ne_duplicate id), hne (by decide)⟩
  · intro hn hi ha hm
    have hall : ¬ (truthy name = false ∨ truthy id = false ∨ truthy age = false ∨
        truthy major = false) := by simp [hn, hi, ha, hm]
    constructor
    · rintro ⟨r, hr, hrid⟩
      have hsome : (students.find? (hasId id)).isSome = true := by
        rw [List.find?_isSome]
        exact ⟨r, hr, hrid⟩
      have hadd : addStudent name id age major students =
          (failure (msgDuplicate id), students) := by
        rw [addStudent_eq, if_neg hall, if_pos hsome]
      rw [hadd]
      exact ⟨rfl, hne (msgDuplicate_ne_invalidAge id)⟩
    · intro hnew hbad
      have hfound : ¬ (students.find? (hasId id)).isSome = true := by
        rw [List.find?_isSome]
        rintro ⟨r, hr, hrid⟩
        rw [hasId, hnew r hr] at hrid
        exact absurd hrid (by decide)
      rw [addStudent_eq, if_neg hall, if_neg hfound, if_pos hbad]
  · intro hid
    rw [updateStudent_falsy_id age major students hid]
    exact ⟨rfl, hne (Ne.symm (msgNotFound_ne id).2.2), hne (by decide), hne (by decide)⟩
  · intro hid hnone
    have hidx : ¬ students.findIdx (hasId id) < students.length := by
      rw [List.findIdx_lt_length]
      rintro ⟨r, hr, hrid⟩
      rw [hasId, hnone r hr] at hrid
      exact absurd hrid (by decide)
    rw [updateStudent_absent age major hid hidx]
    exact ⟨rfl, hne (msgNotFound_ne id).1, hne (msgNotFound_ne id).2.1⟩

/-- Witness of C19, amended: on the store that holds Alice, an empty name with her id and
an age that does not parse; a duplicate id with an age that does not parse; a new id with
such an age; an empty id and an absent id in `updateStudent`, both optional fields empty. -/
theorem error_precedence_witness :
    (addStudent (.str "") (.str "S1") (.str "abc") (.str "EE") aliceStore =
        (failure msgIncomplete, aliceStore) ∧
      (addStudent (.str "") (.str "S1") (.str "abc") (.str "EE") aliceStore).1 ≠
        failure (msgDuplicate (.str "S1")) ∧
      (addStudent (.str "") (.str "S1") (.str "abc") (.str "EE") aliceStore).1 ≠
        failure msgInvalidAge) ∧
      (addStudent (.str "Bob") (.str "S1") (.str "abc") (.str "EE") aliceStore =
        (failure (msgDuplicate (.str "S1")), aliceStore) ∧
      (addStudent (.str "Bob") (.str "S1") (.str "abc") (.str "EE") aliceStore).1 ≠
        failure msgInvalidAge) ∧
      addStudent (.str "Bob") (.str "S2") (.str "abc") (.str "EE") aliceStore =
        (failure msgInvalidAge, aliceStore) ∧
      (updateStudent (.str "") (.str "") (.str "") aliceStore =
        (failure msgEnterId, aliceStore) ∧
      (updateStudent (.str "") (.str "") (.str "") aliceStore).1 ≠
        failure (msgNotFound (.str "")) ∧
      (updateStudent (.str "") (.str "") (.str "") aliceStore).1 ≠ failure msgNoFields ∧
      (updateStudent (.str "") (.str "") (.str "") aliceStore).1 ≠ failure msgInvalidAge) ∧
      (updateStudent (.str "S9") (.str "") (.str "") aliceStore =
        (failure (msgNotFound (.str "S9")), aliceStore) ∧
      (updateStudent (.str "S9") (.str "") (.str "") aliceStore).1 ≠ failure msgNoFields ∧
      (updateStudent (.str "S9") (.str "") (.str "") aliceStore).1 ≠ failure msgInvalidAge) :=
  ⟨(error_precedence aliceStore (.str "") (.str "S1") (.str "abc") (.str "EE")).1
      (Or.inl (by decide)),
    ((error_precedence aliceStore (.str "Bob") (.str "S1") (.str "abc") (.str "EE")).2.1
      (by decide) (by decide) (by decide) (by decide)).1
      ⟨_, List.mem_singleton_self _, by decide⟩,
    ((error_precedence aliceStore (.str "Bob") (.str "S2") (.str "abc") (.str "EE")).2.1
      (by decide) (by decide) (by decide) (by decide)).2
      (by decide) (Or.inl (by decide)),
    (error_precedence aliceStore (.str "Bob") (.str "") (.str "") (.str "")).2.2.1
      (by decide),
    (error_precedence aliceStore (.str "Bob") (.str "S9") (.str "") (.str "")).2.2.2
      (by decide) (by decide)⟩

/-- C20: a falsy age counts as not given rather than as invalid.  For every store that
holds a record with id `id` and every truthy major `m`, `updateStudent(id, 0, m)` with the
number `0` as age succeeds, overwrites the first record `students[i]` with that id by the
same record with major `m`, its age unchanged, and returns it; and `addStudent` with the
number `0` as age fails with the missing-field message, which is not the invalid-age
message, whatever the other fields `name`, `newId` and `major` are.  The stores are the
reachable ones; any other list of records will do as well when `id` is truthy. -/
theorem zero_age_not_given (students : Store) (id m name newId major : JSVal)
    (hstore : Reachable students ∨ truthy id = true)
    (hmem : ∃ r ∈ students, r.id = id) (hm : truthy m = true) :
    (∃ (i : Nat) (hi : i < students.length),
        strictEq (students[i]).id id = true ∧
        (∀ (j : Nat) (hj : j < students.length), j < i →
          strictEq (students[j]).id id = false) ∧
        updateStudent id (.num (.int 0)) m students =
          ({ success := true, message := some (msgUpdated (students[i]).name),
             student := some { name := (students[i]).name, id := (students[i]).id,
                               age := (students[i]).age, major := m } },
           students.set i { name := (students[i]).name, id := (students[i]).id,
                            age := (students[i]).age, major := m })) ∧
      addStudent name newId (.num (.int 0)) major students =
        (failure msgIncomplete, students) ∧
      msgIncomplete ≠ msgInvalidAge := by
  obtain ⟨hid, hidx⟩ := present_of_mem hstore hmem
  have hzero : truthy (.num (.int 0)) = false := by decide
  refine ⟨⟨students.findIdx (hasId id), hidx, List.findIdx_getElem (w := hidx), ?_, ?_⟩,
    ?_, by decide⟩
  · intro j hj hlt
    simpa [hasId] using List.not_of_lt_findIdx hlt
  · rw [updateStudent_ok hid hidx (Or.inr hm) (fun h => by rw [hzero] at h; simp at h)]
    simp [updatedRecord, hzero, hm]
  · rw [addStudent_eq, if_pos (Or.inr (Or.inr (Or.inl hzero)))]

/-- Witness of C20: Alice gets a new major with the number `0` as age, and keeps her age. -/
theorem zero_age_not_given_witness :
    Reachable aliceStore ∧
    (∃ (i : Nat) (hi : i < aliceStore.length),
        strictEq (aliceStore[i]).id (.str "S1") = true ∧
        (∀ (j : Nat) (hj : j < aliceStore.length), j < i →
          strictEq (aliceStore[j]).id (.str "S1") = false) ∧
        updateStudent (.str "S1") (.num (.int 0)) (.str "EE") aliceStore =
          ({ success := true, message := some (msgUpdated (aliceStore[i]).name),
             student := some { name := (aliceStore[i]).name, id := (aliceStore[i]).id,
                               age := (aliceStore[i]).age, major := .str "EE" } },
           aliceStore.set i { name := (aliceStore[i]).name, id := (aliceStore[i]).id,
                              age := (aliceStore[i]).age, major := .str "EE" })) ∧
      addStudent (.str "Bob") (.str "S2") (.num (.int 0)) (.str "CS") aliceStore =
        (failure msgIncomplete, aliceStore) ∧
      msgIncomplete ≠ msgInvalidAge :=
  ⟨aliceStore_reachable,
    zero_age_not_given aliceStore (.str "S1") (.str "EE") (.str "Bob") (.str "S2") (.str "CS")
      (Or.inl aliceStore_reachable) ⟨_, List.mem_singleton_self _, rfl⟩ (by decide)⟩

/-! ## parseInt on numerals -/

lemma isDigit_iff (c : Char) : c.isDigit = true ↔ 48 ≤ c.toNat ∧ c.toNat ≤ 57 := by
  simp [Char.isDigit, Char.toNat, UInt32.le_def, BitVec.le_def, UInt32.toNat]

lemma isRadixDigit_ten (c : Char) : isRadixDigit 10 c = c.isDigit := by
  rw [Bool.eq_iff_iff, isDigit_iff]
  unfold isRadixDigit digitValue
  split_ifs with h1 h2 h3 <;> simp <;> omega

lemma not_whiteSpace_of_isDigit {c : Char} (h : c.isDigit = true) :
    isStrWhiteSpaceChar c = false := by
  rw [isDigit_iff] at h
  simp [isStrWhiteSpaceChar]
  omega

lemma signMatch_eq (s : List Char) : (∀ t, s ≠ '-' :: t ∧ s ≠ '+' :: t) →
    (match s with
      | '-' :: t => (true, t)
      | '+' :: t => (false, t)
      | _ => (false, s)) = ((false, s) : Bool × List Char) := by
  intro h
  split
  · next t => exact absurd rfl (h t).1
  · next t => exact absurd rfl (h t).2
  · rfl

lemma radixMatch_eq (s : List Char) : (∀ t, s ≠ '0' :: 'x' :: t ∧ s ≠ '0' :: 'X' :: t) →
    (match s with
      | '0' :: 'x' :: t => (16, t)
      | '0' :: 'X' :: t => (16, t)
      | _ => (10, s)) = ((10, s) : Nat × List Char) := by
  intro h
  split
  · next t => exact absurd rfl (h t).1
  · next t => exact absurd rfl (h t).2
  · rfl

/-- An input with no leading white space, no sign and no `0x` is read in radix ten. -/
lemma parseIntChars_plain (input : List Char)
    (hws : input.dropWhile isStrWhiteSpaceChar = input)
    (hsign : ∀ t, input ≠ '-' :: t ∧ input ≠ '+' :: t)
    (hhex : ∀ t, input ≠ '0' :: 'x' :: t ∧ input ≠ '0' :: 'X' :: t) :
    parseIntChars input =
      if input.takeWhile (isRadixDigit 10) = [] then .nan
      else toNumber (mathInt 10 (input.takeWhile (isRadixDigit 10))) := by
  unfold parseIntChars
  simp only [hws, signMatch_eq input hsign, radixMatch_eq input hhex]
  simp

/-- An input that starts with a minus sign, with no `0x` after it. -/
lemma parseIntChars_minus (input : List Char)
    (hhex : ∀ t, input ≠ '0' :: 'x' :: t ∧ input ≠ '0' :: 'X' :: t) :
    parseIntChars ('-' :: input) =
      if input.takeWhile (isRadixDigit 10) = [] then .nan
      else (toNumber (mathInt 10 (input.takeWhile (isRadixDigit 10)))).negate := by
  unfold parseIntChars
  have hws : ('-' :: input).dropWhile isStrWhiteSpaceChar = '-' :: input := by
    rw [List.dropWhile_cons_of_neg (by decide)]
  simp only [hws, radixMatch_eq input hhex]
  simp

lemma takeWhile_digits (ds rest : List Char) (hds : ∀ c ∈ ds, c.isDigit = true)
    (hrest : ∀ c ∈ rest.head?, c.isDigit = false) :
    (ds ++ rest).takeWhile (isRadixDigit 10) = ds := by
  induction ds with
  | nil =>
    cases rest with
    | nil => rfl
    | cons c r =>
      have hc : isRadixDigit 10 c = false := by
        rw [isRadixDigit_ten]
        exact hrest c (by simp)
      simp [List.takeWhile_cons, hc]
  | cons d ds ih =>
    have hd : isRadixDigit 10 d = true := by
      rw [isRadixDigit_ten]
      exact hds d (List.mem_cons_self _ _)
    simp only [List.cons_append, List.takeWhile_cons, hd, if_true]
    rw [ih (fun c hc => hds c (List.mem_cons_of_mem _ hc))]

/-- A non-empty run of decimal digits, then something that does not start with a digit,
is read as the integer that the digits write, unless the input starts with `0x`. -/
lemma parseIntChars_digits (ds rest : List Char) (hne : ds ≠ [])
    (hds : ∀ c ∈ ds, c.isDigit = true) (hrest : ∀ c ∈ rest.head?, c.isDigit = false)
    (hhex : ∀ t, ds ++ rest ≠ '0' :: 'x' :: t ∧ ds ++ rest ≠ '0' :: 'X' :: t) :
    parseIntChars (ds ++ rest) = toNumber (mathInt 10 ds) := by
  obtain ⟨d, ds1, rfl⟩ := List.exists_cons_of_ne_nil hne
  have hd : d.isDigit = true := hds d (List.mem_cons_self _ _)
  have hws : ((d :: ds1) ++ rest).dropWhile isStrWhiteSpaceChar = (d :: ds1) ++ rest := by
    rw [List.cons_append, List.dropWhile_cons_of_neg]
    rw [not_whiteSpace_of_isDigit hd]
    decide
  have hsign : ∀ t, (d :: ds1) ++ rest ≠ '-' :: t ∧ (d :: ds1) ++ rest ≠ '+' :: t := by
    intro t
    constructor <;>
    · intro h
      have hd1 : d = _ := (List.cons.inj h).1
      rw [hd1] at hd
      exact absurd hd (by decide)
  rw [parseIntChars_plain _ hws hsign hhex, takeWhile_digits _ _ hds hrest]
  simp

/-- The same with a minus sign in front. -/
lemma parseIntChars_minus_digits (ds rest : List Char) (hne : ds ≠ [])
    (hds : ∀ c ∈ ds, c.isDigit = true) (hrest : ∀ c ∈ rest.head?, c.isDigit = false)
    (hhex : ∀ t, ds ++ rest ≠ '0' :: 'x' :: t ∧ ds ++ rest ≠ '0' :: 'X' :: t) :
    parseIntChars ('-' :: (ds ++ rest)) = (toNumber (mathInt 10 ds)).negate := by
  rw [parseIntChars_minus _ hhex, takeWhile_digits _ _ hds hrest]
  simp [hne]

/-- Digits followed by what is not `x` never start with `0x`. -/
lemma no_hex_of_digits (ds rest : List Char) (hne : ds ≠ [])
    (hds : ∀ c ∈ ds, c.isDigit = true) (hrest : ∀ c ∈ rest.head?, c ≠ 'x' ∧ c ≠ 'X') :
    ∀ t, ds ++ rest ≠ '0' :: 'x' :: t ∧ ds ++ rest ≠ '0' :: 'X' :: t := by
  obtain ⟨d, ds1, rfl⟩ := List.exists_cons_of_ne_nil hne
  intro t
  cases ds1 with
  | nil =>
    cases rest with
    | nil => simp
    | cons c r =>
      have hc := hrest c (by simp)
      constructor
      · intro h
        simp only [List.cons_append, List.nil_append, List.cons.injEq] at h
        exact hc.1 h.2.1
      · intro h
        simp only [List.cons_append, List.nil_append, List.cons.injEq] at h
        exact hc.2 h.2.1
  | cons e ds2 =>
    have he : e.isDigit = true := hds e (by simp)
    constructor <;>
    · intro h
      simp only [List.cons_append, List.cons.injEq] at h
      rw [h.2.1] at he
      exact absurd he (by decide)

/-- Digits that do not start with `0` never start with `0x`. -/
lemma no_hex_of_head (l : List Char) (h0 : l.head? ≠ some '0') :
    ∀ t, l ≠ '0' :: 'x' :: t ∧ l ≠ '0' :: 'X' :: t := by
  intro t
  constructor <;>
  · intro h
    rw [h] at h0
    simp at h0

lemma toNumber_of_lt {m : Nat} (h : m < 2 ^ 53) : toNumber m = .int m := by
  unfold toNumber
  rw [if_pos h]

lemma mathInt_append_singleton (ds : List Char) (d : Char) :
    mathInt 10 (ds ++ [d]) = mathInt 10 ds * 10 + (digitValue d).getD 0 := by
  simp [mathInt, List.foldl_append]

lemma digitChar_facts (k : Nat) (hk : k < 10) :
    (Nat.digitChar k).isDigit = true ∧ (digitValue (Nat.digitChar k)).getD 0 = k ∧
      (0 < k → Nat.digitChar k ≠ '0') := by
  interval_cases k <;> decide

/-- The decimal digits that `Nat.toDigits` writes: a non-empty run of digit characters that
reads back as the number, and that does not start with `0` unless the number is zero. -/
lemma toDigitsCore_spec : ∀ (n fuel : Nat) (acc : List Char), n < fuel →
    ∃ ds : List Char, Nat.toDigitsCore 10 fuel n acc = ds ++ acc ∧ ds ≠ [] ∧
      (∀ c ∈ ds, c.isDigit = true) ∧ mathInt 10 ds = n ∧
      (0 < n → ds.head? ≠ some '0') := by
  intro n
  induction n using Nat.strong_induction_on with
  | _ n ih =>
    intro fuel acc hfuel
    obtain ⟨f, rfl⟩ : ∃ f, fuel = f + 1 := ⟨fuel - 1, by omega⟩
    have hmod : n % 10 < 10 := Nat.mod_lt _ (by decide)
    obtain ⟨hdig, hval, hnz⟩ := digitChar_facts (n % 10) hmod
    by_cases hq : n / 10 = 0
    · have hn : n % 10 = n := by omega
      refine ⟨[Nat.digitChar (n % 10)], ?_, by simp, ?_, ?_, ?_⟩
      · simp [Nat.toDigitsCore, hq]
      · intro c hc
        rw [List.mem_singleton.mp hc]
        exact hdig
      · have := mathInt_append_singleton [] (Nat.digitChar (n % 10))
        simp only [List.nil_append] at this
        rw [this, hval]
        simp [mathInt, hn]
      · intro hpos
        simp only [List.head?_cons, ne_eq, Option.some.injEq]
        exact hnz (by omega)
    · have hlt : n / 10 < n := by omega
      obtain ⟨ds, heq, hne, hall, hm, hhead⟩ :=
        ih (n / 10) hlt f (Nat.digitChar (n % 10) :: acc) (by omega)
      refine ⟨ds ++ [Nat.digitChar (n % 10)], ?_, by simp, ?_, ?_, ?_⟩
      · simp [Nat.toDigitsCore, hq, heq]
      · intro c hc
        rcases List.mem_append.mp hc with h | h
        · exact hall c h
        · rw [List.mem_singleton.mp h]
          exact hdig
      · rw [mathInt_append_singleton, hm, hval]
        omega
      · intro _
        obtain ⟨d, ds1, rfl⟩ := List.exists_cons_of_ne_nil hne
        simpa using hhead (by omega)

lemma toDigits_spec (n : Nat) :
    Nat.toDigits 10 n ≠ [] ∧ (∀ c ∈ Nat.toDigits 10 n, c.isDigit = true) ∧
      mathInt 10 (Nat.toDigits 10 n) = n ∧
      (0 < n → (Nat.toDigits 10 n).head? ≠ some '0') := by
  obtain ⟨ds, heq, hne, hall, hm, hhead⟩ := toDigitsCore_spec n (n + 1) [] (by omega)
  rw [List.append_nil] at heq
  rw [Nat.toDigits, heq]
  exact ⟨hne, hall, hm, hhead⟩

/-! ## Ages that parse to an integer -/

lemma truthy_str_mk_cons (c : Char) (l : List Char) : truthy (.str (String.mk (c :: l))) = true := by
  have h : String.mk (c :: l) ≠ "" := by
    intro h
    have h1 := congrArg String.data h
    simp at h1
  simp [truthy, h]

lemma addStudent_stores_age {name id age major : JSVal} {students : Store} {n : Int}
    (hname : truthy name = true) (hid : truthy id = true) (hmajor : truthy major = true)
    (hnew : ∀ r ∈ students, strictEq r.id id = false)
    (hage : parseInt age = .int n) (hpos : 0 < n) :
    addStudent name id age major students =
      ({ success := true, message := some (msgAdded name),
         student := some { name := name, id := id, age := .int n, major := major } },
       students ++ [{ name := name, id := id, age := .int n, major := major }]) := by
  have hacc : ((parseInt age).isNaN || (parseInt age).leZero) = false := by
    rw [hage]
    simp [JSNum.isNaN, JSNum.leZero, hpos]
  have hfind : students.find? (hasId id) = none := by
    rw [List.find?_eq_none]
    intro r hr
    simp [hasId, hnew r hr]
  rw [addStudent_eq]
  simp [hname, hid, truthy_of_accepted hacc, hmajor, hfind, hage, JSNum.isNaN, JSNum.leZero,
    hpos]

lemma addStudent_rejects_age {name id age major : JSVal} {students : Store} {n : Int}
    (hname : truthy name = true) (hid : truthy id = true) (htage : truthy age = true)
    (hmajor : truthy major = true)
    (hnew : ∀ r ∈ students, strictEq r.id id = false)
    (hage : parseInt age = .int n) (hn : n ≤ 0) :
    addStudent name id age major students = (failure msgInvalidAge, students) := by
  have hfind : students.find? (hasId id) = none := by
    rw [List.find?_eq_none]
    intro r hr
    simp [hasId, hnew r hr]
  rw [addStudent_eq]
  simp [hname, hid, htage, hmajor, hfind, hage, JSNum.isNaN, JSNum.leZero, hn]

lemma findIdx_lt_of_strictEq {id : JSVal} {students : Store}
    (hmem : ∃ r ∈ students, strictEq r.id id = true) :
    students.findIdx (hasId id) < students.length := by
  rw [List.findIdx_lt_length]
  exact hmem

lemma updateStudent_sets_age {id age : JSVal} (major : JSVal) {students : Store} {n : Int}
    (hid : truthy id = true) (hmem : ∃ r ∈ students, strictEq r.id id = true)
    (hage : parseInt age = .int n) (hpos : 0 < n) :
    ∃ r : Student,
      (updateStudent id age major students).1 =
          { success := true, message := some (msgUpdated r.name), student := some r } ∧
        r.age = .int n ∧
        (queryStudent id (updateStudent id age major students).2).1.student = some r := by
  have hidx := findIdx_lt_of_strictEq hmem
  have hacc : ((parseInt age).isNaN || (parseInt age).leZero) = false := by
    rw [hage]
    simp [JSNum.isNaN, JSNum.leZero, hpos]
  have hta := truthy_of_accepted hacc
  have hat : hasId id (students[students.findIdx (hasId id)]) = true :=
    List.findIdx_getElem (w := hidx)
  refine ⟨updatedRecord (students[students.findIdx (hasId id)]) age major, ?_, ?_, ?_⟩
  · rw [updateStudent_ok hid hidx (Or.inl hta) (fun _ => hacc)]
    rfl
  · simp [updatedRecord, hta, hage]
  · rw [updateStudent_ok hid hidx (Or.inl hta) (fun _ => hacc)]
    have hr : hasId id (updatedRecord (students[students.findIdx (hasId id)]) age major)
        = true := hat
    simp [queryStudent, hid, find?_set_findIdx hidx hr]

lemma updateStudent_rejects_age {id age : JSVal} (major : JSVal) {students : Store} {n : Int}
    (hid : truthy id = true) (hmem : ∃ r ∈ students, strictEq r.id id = true)
    (htage : truthy age = true) (hage : parseInt age = .int n) (hn : n ≤ 0) :
    updateStudent id age major students = (failure msgInvalidAge, students) := by
  apply updateStudent_invalid_age major hid (findIdx_lt_of_strictEq hmem) htage
  rw [hage]
  simp [JSNum.isNaN, JSNum.leZero, hn]

lemma parseInt_fractionalNumeral (neg : Bool) (ds frac : List Char) (hne : ds ≠ [])
    (hds : ∀ c ∈ ds, c.isDigit = true) (hbound : mathInt 10 ds < 2 ^ 53) :
    parseInt (fractionalNumeral neg ds frac) =
      .int (if neg = true then -(mathInt 10 ds : Int) else (mathInt 10 ds : Int)) := by
  have hrest : ∀ c ∈ ('.' :: frac).head?, c.isDigit = false := by
    intro c hc
    simp only [List.head?_cons, Option.mem_def, Option.some.injEq] at hc
    rw [← hc]
    decide
  have hhex := no_hex_of_digits ds ('.' :: frac) hne hds (by
    intro c hc
    simp only [List.head?_cons, Option.mem_def, Option.some.injEq] at hc
    rw [← hc]
    decide)
  cases neg with
  | false =>
    simp only [fractionalNumeral, parseInt, toStr]
    rw [parseIntChars_digits ds _ hne hds hrest hhex, toNumber_of_lt hbound]
    simp
  | true =>
    simp only [fractionalNumeral, parseInt, toStr]
    rw [parseIntChars_minus_digits ds _ hne hds hrest hhex, toNumber_of_lt hbound]
    simp [JSNum.negate]

lemma truthy_fractionalNumeral (neg : Bool) (ds frac : List Char) (hne : ds ≠ []) :
    truthy (fractionalNumeral neg ds frac) = true := by
  obtain ⟨d, ds1, rfl⟩ := List.exists_cons_of_ne_nil hne
  cases neg
  · exact truthy_str_mk_cons _ _
  · exact truthy_str_mk_cons _ _

lemma parseInt_partialNumeral (n : Nat) (hpos : 0 < n) (hbound : n < 2 ^ 53) (c : Char)
    (rest : List Char) (hc : c.isDigit = false) :
    parseInt (partialNumeral n c rest) = .int n := by
  obtain ⟨hne, hall, hm, hhead⟩ := toDigits_spec n
  have hrest : ∀ a ∈ (c :: rest).head?, a.isDigit = false := by
    intro a ha
    simp only [List.head?_cons, Option.mem_def, Option.some.injEq] at ha
    rw [← ha]
    exact hc
  have hhex : ∀ t, Nat.toDigits 10 n ++ c :: rest ≠ '0' :: 'x' :: t ∧
      Nat.toDigits 10 n ++ c :: rest ≠ '0' :: 'X' :: t := by
    apply no_hex_of_head
    obtain ⟨d, ds1, hd⟩ := List.exists_cons_of_ne_nil hne
    have h0 := hhead hpos
    rw [hd] at h0 ⊢
    simpa using h0
  simp only [partialNumeral, parseInt, toStr]
  rw [parseIntChars_digits _ _ hne hall hrest hhex, hm, toNumber_of_lt hbound]

set_option maxRecDepth 1000000 in
set_option exponentiation.threshold 2000 in
/-- C13, as stated, fails on a numeral whose integer part is not a double: the age
`9007199254740993.5` is a decimal numeral with a fractional part, its integer part
`9007199254740993` is positive, and `addStudent` stores the age `9007199254740992`. -/
theorem fractional_age_rounded :
    fractionalNumeral false "9007199254740993".data "5".data = .str "9007199254740993.5" ∧
      mathInt 10 "9007199254740993".data = 9007199254740993 ∧
      addStudent (.str "Alice") (.str "S1") (.str "9007199254740993.5") (.str "CS") [] =
        ({ success := true, message := some (msgAdded (.str "Alice")),
           student := some { name := .str "Alice", id := .str "S1",
                             age := .int 9007199254740992, major := .str "CS" } },
         [{ name := .str "Alice", id := .str "S1", age := .int 9007199254740992,
            major := .str "CS" }]) := by
  decide

/-- C13, amended: age parsing truncates a decimal numeral with a fractional part toward
zero, as long as the integer part is below `2^53`.  For every age written as an optional
minus sign, a non-empty run of digits `ds` that writes an integer `n < 2^53`, a point and
any characters after it, `parseInt` returns `n`, or `-n` with the minus sign.  When the
numeral is not negative and `n` is positive, `addStudent` with otherwise valid inputs
succeeds and stores the age `n`, and `updateStudent` on a present id succeeds and sets the
age to `n`; when the numeral is negative or `n` is zero, both are rejected with the
invalid-age message and leave the store as it is. -/
theorem fractional_age_truncated (neg : Bool) (ds frac : List Char)
    (name id major : JSVal) (students : Store)
    (hne : ds ≠ []) (hds : ∀ c ∈ ds, c.isDigit = true) (hbound : mathInt 10 ds < 2 ^ 53)
    (hid : truthy id = true) :
    parseInt (fractionalNumeral neg ds frac) =
        .int (if neg = true then -(mathInt 10 ds : Int) else (mathInt 10 ds : Int)) ∧
      (truthy name = true → truthy major = true →
        (∀ r ∈ students, strictEq r.id id = false) →
        (neg = false ∧ 0 < mathInt 10 ds →
          addStudent name id (fractionalNumeral neg ds frac) major students =
            ({ success := true, message := some (msgAdded name),
               student := some { name := name, id := id, age := .int (mathInt 10 ds),
                                 major := major } },
             students ++ [{ name := name, id := id, age := .int (mathInt 10 ds),
                            major := major }])) ∧
        (neg = true ∨ mathInt 10 ds = 0 →
          addStudent name id (fractionalNumeral neg ds frac) major students =
            (failure msgInvalidAge, students))) ∧
      ((∃ r ∈ students, strictEq r.id id = true) →
        (neg = false ∧ 0 < mathInt 10 ds →
          ∃ r : Student,
            (updateStudent id (fractionalNumeral neg ds frac) major students).1 =
                { success := true, message := some (msgUpdated r.name), student := some r } ∧
              r.age = .int (mathInt 10 ds) ∧
              (queryStudent id
                (updateStudent id (fractionalNumeral neg ds frac) major students).2).1.student
                = some r) ∧
        (neg = true ∨ mathInt 10 ds = 0 →
          updateStudent id (fractionalNumeral neg ds frac) major students =
            (failure msgInvalidAge, students))) := by
  have hparse := parseInt_fractionalNumeral neg ds frac hne hds hbound
  have htage := truthy_fractionalNumeral neg ds frac hne
  have hnonpos : neg = true ∨ mathInt 10 ds = 0 →
      (if neg = true then -(mathInt 10 ds : Int) else (mathInt 10 ds : Int)) ≤ 0 := by
    rintro (h | h)
    · simp [h]
    · simp [h]
  refine ⟨hparse, ?_, ?_⟩
  · intro hname hmajor hnew
    constructor
    · rintro ⟨hneg, hpos⟩
      rw [hneg] at hparse
      exact addStudent_stores_age hname hid hmajor hnew
        (by simpa [hneg] using hparse) (by exact_mod_cast hpos)
    · intro h
      exact addStudent_rejects_age hname hid htage hmajor hnew hparse (hnonpos h)
  · intro hmem
    constructor
    · rintro ⟨hneg, hpos⟩
      rw [hneg] at hparse
      exact updateStudent_sets_age major hid hmem
        (by simpa [hneg] using hparse) (by exact_mod_cast hpos)
    · intro h
      exact updateStudent_rejects_age major hid hmem htage hparse (hnonpos h)

/-- Witness of C13, amended: the age `20.9` parses to `20`, and Alice, added with it, has
the age `20`. -/
theorem fractional_age_truncated_witness :
    fractionalNumeral false "20".data "9".data = .str "20.9" ∧
      parseInt (.str "20.9") = .int 20 ∧
      addStudent (.str "Alice") (.str "S1") (.str "20.9") (.str "CS") [] =
        ({ success := true, message := some (msgAdded (.str "Alice")),
           student := some { name := .str "Alice", id := .str "S1", age := .int 20,
                             major := .str "CS" } },
         [{ name := .str "Alice", id := .str "S1", age := .int 20, major := .str "CS" }]) :=
  ⟨by decide,
    (fractional_age_truncated false "20".data "9".data (.str "Alice") (.str "S1") (.str "CS")
      [] (by decide) (by decide) (by decide) (by decide)).1,
    ((fractional_age_truncated false "20".data "9".data (.str "Alice") (.str "S1") (.str "CS")
      [] (by decide) (by decide) (by decide) (by decide)).2.1
      (by decide) (by decide) (by simp)).1 ⟨rfl, by decide⟩⟩

/-- C16: partial numeric strings parse by leading-digit extraction.  For every positive
integer `n` below `2^53` and every age string made of the decimal digits of `n` followed
by a character `c` that is not a digit and by any characters `rest`, `parseInt` returns
`n`, `addStudent` with otherwise valid inputs succeeds and stores the age `n`, and
`updateStudent` on a present id succeeds and sets the age to `n`. -/
theorem partial_numeric_age (n : Nat) (c : Char) (rest : List Char)
    (name id major : JSVal) (students : Store)
    (hpos : 0 < n) (hbound : n < 2 ^ 53) (hc : c.isDigit = false)
    (hid : truthy id = true) :
    parseInt (partialNumeral n c rest) = .int n ∧
      (truthy name = true → truthy major = true →
        (∀ r ∈ students, strictEq r.id id = false) →
        addStudent name id (partialNumeral n c rest) major students =
          ({ success := true, message := some (msgAdded name),
             student := some { name := name, id := id, age := .int n, major := major } },
           students ++ [{ name := name, id := id, age := .int n, major := major }])) ∧
      ((∃ r ∈ students, strictEq r.id id = true) →
        ∃ r : Student,
          (updateStudent id (partialNumeral n c rest) major students).1 =
              { success := true, message := some (msgUpdated r.name), student := some r } ∧
            r.age = .int n ∧
            (queryStudent id
              (updateStudent id (partialNumeral n c rest) major students).2).1.student
              = some r) := by
  have hparse := parseInt_partialNumeral n hpos hbound c rest hc
  refine ⟨hparse, ?_, ?_⟩
  · intro hname hmajor hnew
    exact addStudent_stores_age hname hid hmajor hnew hparse (by exact_mod_cast hpos)
  · intro hmem
    exact updateStudent_sets_age major hid hmem hparse (by exact_mod_cast hpos)

/-- Witness of C16: the age `20abc` parses to `20`, and Alice, added with it, has the age
`20`. -/
theorem partial_numeric_age_witness :
    partialNumeral 20 'a' "bc".data = .str "20abc" ∧
      parseInt (.str "20abc") = .int 20 ∧
      addStudent (.str "Alice") (.str "S1") (.str "20abc") (.str "CS") [] =
        ({ success := true, message := some (msgAdded (.str "Alice")),
           student := some { name := .str "Alice", id := .str "S1", age := .int 20,
                             major := .str "CS" } },
         [{ name := .str "Alice", id := .str "S1", age := .int 20, major := .str "CS" }]) :=
  ⟨by decide,
    (partial_numeric_age 20 'a' "bc".data (.str "Alice") (.str "S1") (.str "CS") []
      (by decide) (by norm_num) (by decide) (by decide)).1,
    (partial_numeric_age 20 'a' "bc".data (.str "Alice") (.str "S1") (.str "CS") []
      (by decide) (by norm_num) (by decide) (by decide)).2.1
      (by decide) (by decide) (by simp)⟩

/-! ## Well-formed records -/

lemma age_of_accepted {n : JSNum} (h : (n.isNaN || n.leZero) = false) :
    (∃ z : Int, 0 < z ∧ n = .int z) ∨ n = .inf false := by
  cases n with
  | nan => simp [JSNum.isNaN] at h
  | int z =>
    left
    refine ⟨z, ?_, rfl⟩
    simpa [JSNum.isNaN, JSNum.leZero] using h
  | inf neg =>
    right
    cases neg
    · rfl
    · simp [JSNum.isNaN, JSNum.leZero] at h

lemma wellFormed_step {students : Store} (h : ∀ r ∈ students, WellFormed r) (call : Call) :
    ∀ r ∈ step students call, WellFormed r := by
  cases call with
  | add name id age major =>
    have h1 := addStudent_eq name id age major students
    simp only [step]
    split_ifs at h1 with c1 c2 c3
    · rw [h1]; exact h
    · rw [h1]; exact h
    · rw [h1]; exact h
    · rw [h1]
      intro r hr
      rcases List.mem_append.mp hr with hr | hr
      · exact h r hr
      · rw [List.mem_singleton.mp hr]
        have hall : truthy name = true ∧ truthy id = true ∧ truthy age = true ∧
            truthy major = true := by simpa using c1
        have hacc : ((parseInt age).isNaN || (parseInt age).leZero) = false := by
          simpa using c3
        exact ⟨hall.1, hall.2.1, hall.2.2.2, age_of_accepted hacc⟩
  | query id =>
    simp only [step, queryStudent_store]
    exact h
  | update id age major =>
    simp only [step]
    rcases updateStudent_cases id age major students with ⟨_, hs⟩ | ⟨hidx, _, _, hp, heq⟩
    · rw [hs]; exact h
    · rw [heq]
      intro r hr
      rcases List.mem_or_eq_of_mem_set hr with hr | hr
      · exact h r hr
      · obtain ⟨h1, h2, h3, h4⟩ := h _ (List.getElem_mem hidx)
        rw [hr]
        refine ⟨h1, h2, ?_, ?_⟩
        · simp only [updatedRecord]
          split_ifs with hm
          · exact hm
          · exact h3
        · simp only [updatedRecord]
          split_ifs with ha
          · exact age_of_accepted (hp ha)
          · exact h4
  | delete id =>
    simp only [step]
    rcases deleteStudent_store id students with hs | hs
    · rw [hs]; exact h
    · rw [hs]
      intro r hr
      exact h r ((List.eraseIdx_sublist students _).subset hr)
  | showAll =>
    simp only [step, showAllStudents]
    exact h

lemma wellFormed_foldl (calls : List Call) :
    ∀ students : Store, (∀ r ∈ students, WellFormed r) →
      ∀ r ∈ calls.foldl step students, WellFormed r := by
  induction calls with
  | nil => intro students h; exact h
  | cons call rest ih =>
    intro students h
    exact ih _ (wellFormed_step h call)

set_option maxRecDepth 1000000 in
set_option exponentiation.threshold 2000 in
/-- C15, as stated, fails on an age beyond the range of the doubles.  One `addStudent` call
with string arguments, the age being `1` followed by 309 zeros, succeeds from the empty
store and leaves a record whose age is `Infinity`, which is not an integer. -/
theorem infinite_age_reachable :
    hugeNumeral.length = 310 ∧
      run [.add (.str "Alice") (.str "S1") (.str hugeNumeral) (.str "CS")] =
        [{ name := .str "Alice", id := .str "S1", age := .inf false, major := .str "CS" }] ∧
      ∀ z : Int, JSNum.inf false ≠ .int z := by
  refine ⟨by decide, by decide, ?_⟩
  intro z h
  cases h

/-- C15, amended: record well-formedness is an invariant of the reachable stores.  After
any sequence of calls from the empty store, with string arguments or any other primitive
values, every record of the store has a truthy (non-empty) name, a truthy id, a truthy
major, and an age that is a positive integer or `Infinity`: never a string, zero, a
negative number or `NaN`. -/
theorem wellFormed_reachable (calls : List Call) (r : Student) (hr : r ∈ run calls) :
    truthy r.name = true ∧ truthy r.id = true ∧ truthy r.major = true ∧
      ((∃ z : Int, 0 < z ∧ r.age = .int z) ∨ r.age = .inf false) :=
  wellFormed_foldl calls [] (by simp) r hr

/-- Witness of C15, amended: the record of Alice after an add and an update. -/
theorem wellFormed_reachable_witness :
    ({ name := .str "Alice", id := .str "S1", age := .int 21, major := .str "CS" } : Student) ∈
        run [.add (.str "Alice") (.str "S1") (.str "20") (.str "CS"),
             .update (.str "S1") (.str "21") (.str "")] ∧
      truthy (.str "Alice") = true ∧ truthy (.str "S1") = true ∧ truthy (.str "CS") = true ∧
      ((∃ z : Int, 0 < z ∧ JSNum.int 21 = .int z) ∨ JSNum.int 21 = .inf false) :=
  ⟨by decide,
    wellFormed_reachable
      [.add (.str "Alice") (.str "S1") (.str "20") (.str "CS"),
       .update (.str "S1") (.str "21") (.str "")]
      { name := .str "Alice", id := .str "S1", age := .int 21, major := .str "CS" }
      (by decide)⟩

/-! ## The interactive shell: the update dialogue -/

/-- C17, at the failing input: the menu selection `3`, then the id `S1`.  After the id is
read, the shell asks for the new age and at once asks the menu question again, before any
call of `updateStudent`; `readline` keeps the age callback, writes the age prompt a second
time and drops the menu callback.  With the age `21` and an empty major entered next,
`updateStudent("S1", "21", "")` is called once, its result is logged, and only then the
menu is asked with effect. -/
theorem update_dialogue_asks_menu_early :
    sessionEvents ["3", "S1"] =
        [.question menuQuery, .prompt menuQuery,
         .question idQuery, .prompt idQuery,
         .question newAgeQuery, .prompt newAgeQuery,
         .question menuQuery, .prompt newAgeQuery] ∧
      (session ["3", "S1"]).questionCallback = some (.newAge "S1") ∧
      sessionEvents ["3", "S1", "21", ""] =
        [.question menuQuery, .prompt menuQuery,
         .question idQuery, .prompt idQuery,
         .question newAgeQuery, .prompt newAgeQuery,
         .question menuQuery, .prompt newAgeQuery,
         .question newMajorQuery, .prompt newMajorQuery,
         .called (.update (.str "S1") (.str "21") (.str "")),
         .logMessage (some (msgNotFound (.str "S1"))),
         .question menuQuery, .prompt menuQuery] := by
  decide

end StudentManagementSystem
